import Mathlib

/-!
Verification of the deterministic data-standardization / validation / routing
core of the agentic-marketing-analytics repository.

The Lean definitions below are shallow embeddings of the Python functions in
`scripts/validate_data.py`, `scripts/preprocess.py` and `run_analysis.py`.
Pure functions become Lean functions; pandas Series / DataFrame columns become
`List (Option _)` (with `none` playing the role of NaN); Python floats are
idealized as rationals; code that can raise returns `Except`.
-/

set_option maxRecDepth 10000

namespace ValidateData

/-- Check status (the `status` field of `ValidationResult` in
`scripts/validate_data.py`): one of the strings "PASS", "WARN", "FAIL". -/
inductive Status
  | PASS
  | WARN
  | FAIL
  deriving DecidableEq, Repr

/-- One validation check result (class `ValidationResult`, validate_data.py
lines 100-115): a named check with a status and a message.  The `details`
dict is omitted: it never influences control flow or aggregation. -/
structure ValidationResult where
  check_name : String
  status : Status
  message : String
  deriving DecidableEq, Repr

/-- `FileValidation.add` (validate_data.py lines 127-132), as the update it
performs on `overall_status`: a FAIL check forces FAIL, a WARN check moves a
non-FAIL overall to WARN, a PASS check changes nothing. -/
def add (overall : Status) (s : Status) : Status :=
  if s = Status.FAIL then Status.FAIL
  else if s = Status.WARN ∧ overall ≠ Status.FAIL then Status.WARN
  else overall

/-- A file's `overall_status` after `add`-ing every one of its checks in
order, starting from the initial "PASS" set in `FileValidation.__init__`. -/
def overall_status (checks : List Status) : Status :=
  checks.foldl add Status.PASS

/-- The inputs `run_validation` aggregates for one file: the file's name and
the ordered check results accumulated by `validate_file` through
`FileValidation.add`. -/
structure FileChecks where
  filename : String
  checks : List ValidationResult
  deriving Repr

/-- The `gate_decision` values of `run_validation`. -/
inductive Gate
  | PROCEED
  | PROCEED_WITH_CAVEATS
  | BLOCK
  deriving DecidableEq, Repr

/-- What `run_validation` returns (validate_data.py lines 628-634), restricted
to the fields the claims are about. -/
structure RunResult where
  overall : Status
  gate : Gate
  caveats : List String
  deriving Repr

/-- One iteration of the per-file loop in `run_validation` (lines 602-611):
fold the file's overall status into the pipeline overall and append a caveat
for every WARN check of the file. -/
def fileStep (acc : Status × List String) (fr : FileChecks) : Status × List String :=
  let o := overall_status (fr.checks.map (·.status))
  let overall := if o = Status.FAIL then Status.FAIL
    else if o = Status.WARN ∧ acc.1 ≠ Status.FAIL then Status.WARN
    else acc.1
  (overall, acc.2 ++ (fr.checks.filter (·.status = Status.WARN)).map
    (fun c => fr.filename ++ ": " ++ c.message))

/-- One iteration of the cross-source loop in `run_validation` (lines
613-618): a FAIL check forces overall FAIL; a WARN check moves a non-FAIL
overall to WARN and (only then) appends its message as a caveat. -/
def crossStep (acc : Status × List String) (cs : ValidationResult) : Status × List String :=
  if cs.status = Status.FAIL then (Status.FAIL, acc.2)
  else if cs.status = Status.WARN ∧ acc.1 ≠ Status.FAIL then
    (Status.WARN, acc.2 ++ [cs.message])
  else acc

/-- `run_validation` (validate_data.py lines 563-641), restricted to its
aggregation logic: per-file check lists and the cross-source check list come
in, the pipeline `overall_status`, `gate_decision` and `caveats` come out.
With no files the function returns early (lines 580-588) with PASS / PROCEED
and no caveats, before any cross-source check is computed. -/
def run_validation (files : List FileChecks) (cross : List ValidationResult) : RunResult :=
  if files.isEmpty then ⟨Status.PASS, Gate.PROCEED, []⟩
  else
    let acc := files.foldl fileStep (Status.PASS, [])
    let acc := cross.foldl crossStep acc
    let gate := if acc.1 = Status.FAIL then Gate.BLOCK
      else if acc.1 = Status.WARN then Gate.PROCEED_WITH_CAVEATS
      else Gate.PROCEED
    ⟨acc.1, gate, acc.2⟩

/-- `add` is the max in the severity order PASS < WARN < FAIL: folding it over
a list yields FAIL when a FAIL is present, else WARN when a WARN is present,
else the start value. -/
theorem foldl_add_char (l : List Status) (s : Status) :
    l.foldl add s =
      if s = Status.FAIL ∨ Status.FAIL ∈ l then Status.FAIL
      else if s = Status.WARN ∨ Status.WARN ∈ l then Status.WARN
      else s := by
  induction l generalizing s with
  | nil => cases s <;> simp
  | cons h t ih =>
    rw [List.foldl_cons, ih]
    cases h <;> cases s <;> simp [add]

/-- The status component of the per-file fold equals folding `add` over the
files' overall statuses. -/
theorem fileStep_fst (files : List FileChecks) (acc : Status × List String) :
    (files.foldl fileStep acc).1 =
      (files.map (fun fr => overall_status (fr.checks.map (·.status)))).foldl add acc.1 := by
  induction files generalizing acc with
  | nil => rfl
  | cons f t ih =>
    rw [List.foldl_cons, ih, List.map_cons, List.foldl_cons]
    rcases acc with ⟨o, c⟩
    cases hv : overall_status (f.checks.map (·.status)) <;> cases o <;>
      simp [fileStep, add, hv]

/-- The status component of the cross-source fold equals folding `add` over
the cross-source statuses. -/
theorem crossStep_fst (cross : List ValidationResult) (acc : Status × List String) :
    (cross.foldl crossStep acc).1 = (cross.map (·.status)).foldl add acc.1 := by
  induction cross generalizing acc with
  | nil => rfl
  | cons c t ih =>
    rw [List.foldl_cons, ih, List.map_cons, List.foldl_cons]
    rcases acc with ⟨o, cv⟩
    cases hv : c.status <;> cases o <;> simp [crossStep, add, hv]

/-- If no file contributes WARN checks, the per-file fold adds no caveats. -/
theorem foldl_fileStep_snd_of (files : List FileChecks) (acc : Status × List String)
    (h : ∀ fr ∈ files, fr.checks.filter (·.status = Status.WARN) = []) :
    (files.foldl fileStep acc).2 = acc.2 := by
  induction files generalizing acc with
  | nil => rfl
  | cons f t ih =>
    rw [List.foldl_cons, ih _ (fun fr hf => h fr (List.mem_cons_of_mem _ hf))]
    simp [fileStep, h f (List.mem_cons_self _ _)]

/-- If no cross-source check is WARN, the cross-source fold adds no caveats. -/
theorem foldl_crossStep_snd_of (cross : List ValidationResult) (acc : Status × List String)
    (h : ∀ c ∈ cross, c.status ≠ Status.WARN) :
    (cross.foldl crossStep acc).2 = acc.2 := by
  induction cross generalizing acc with
  | nil => rfl
  | cons c t ih =>
    rw [List.foldl_cons, ih _ (fun x hx => h x (List.mem_cons_of_mem _ hx))]
    have hc := h c (List.mem_cons_self _ _)
    rcases acc with ⟨o, cv⟩
    cases hv : c.status
    · simp [crossStep, hv]
    · simp [hv] at hc
    · simp [crossStep, hv]

/-- The pipeline overall status computed by `run_validation` on a non-empty
file list: FAIL dominates, then WARN, else PASS, over the files' aggregated
statuses and the cross-source check statuses. -/
theorem run_validation_overall (files : List FileChecks) (cross : List ValidationResult)
    (h : files ≠ []) :
    (run_validation files cross).overall =
      (if Status.FAIL ∈ files.map (fun fr => overall_status (fr.checks.map (·.status)))
          ∨ Status.FAIL ∈ cross.map (·.status) then Status.FAIL
       else if Status.WARN ∈ files.map (fun fr => overall_status (fr.checks.map (·.status)))
          ∨ Status.WARN ∈ cross.map (·.status) then Status.WARN
       else Status.PASS) := by
  have hne : files.isEmpty = false := by
    cases files with
    | nil => exact absurd rfl h
    | cons a t => rfl
  show (if files.isEmpty then (⟨Status.PASS, Gate.PROCEED, []⟩ : RunResult) else _).overall = _
  rw [hne]
  simp only [Bool.false_eq_true, if_false]
  simp only [crossStep_fst, fileStep_fst, foldl_add_char]
  by_cases h1 : Status.FAIL ∈ files.map (fun fr => overall_status (fr.checks.map (·.status))) <;>
    by_cases h2 : Status.FAIL ∈ cross.map (·.status) <;>
    by_cases h3 : Status.WARN ∈ files.map (fun fr => overall_status (fr.checks.map (·.status))) <;>
    by_cases h4 : Status.WARN ∈ cross.map (·.status) <;>
    simp [h1, h2, h3, h4]

/-- The gate decision is determined by the overall status exactly as in
lines 621-626. -/
theorem run_validation_gate (files : List FileChecks) (cross : List ValidationResult) :
    (run_validation files cross).gate =
      (if (run_validation files cross).overall = Status.FAIL then Gate.BLOCK
       else if (run_validation files cross).overall = Status.WARN then Gate.PROCEED_WITH_CAVEATS
       else Gate.PROCEED) := by
  by_cases hne : files.isEmpty <;> simp [run_validation, hne]

/-- C1: a file's aggregated overall status is FAIL iff some check FAILs, WARN
iff no check FAILs and some check WARNs, PASS otherwise; the aggregation is
monotonic (appending FAIL forces FAIL, appending WARN moves PASS to WARN);
and on a non-empty file list `run_validation`'s gate_decision is BLOCK iff
some file (or cross-source check) aggregates to FAIL, PROCEED_WITH_CAVEATS
iff none aggregates to FAIL but some file aggregate or cross-source check is
WARN, and PROCEED otherwise. -/
theorem gate_aggregation_spec :
    (∀ checks : List Status,
      (overall_status checks = Status.FAIL ↔ Status.FAIL ∈ checks) ∧
      (overall_status checks = Status.WARN ↔ Status.FAIL ∉ checks ∧ Status.WARN ∈ checks) ∧
      (overall_status checks = Status.PASS ↔ Status.FAIL ∉ checks ∧ Status.WARN ∉ checks) ∧
      overall_status (checks ++ [Status.FAIL]) = Status.FAIL ∧
      (overall_status checks = Status.PASS →
        overall_status (checks ++ [Status.WARN]) = Status.WARN)) ∧
    (∀ (files : List FileChecks) (cross : List ValidationResult), files ≠ [] →
      ((run_validation files cross).gate = Gate.BLOCK ↔
        (∃ fr ∈ files, overall_status (fr.checks.map (·.status)) = Status.FAIL) ∨
        (∃ c ∈ cross, c.status = Status.FAIL)) ∧
      ((run_validation files cross).gate = Gate.PROCEED_WITH_CAVEATS ↔
        (¬((∃ fr ∈ files, overall_status (fr.checks.map (·.status)) = Status.FAIL) ∨
           (∃ c ∈ cross, c.status = Status.FAIL)) ∧
         ((∃ fr ∈ files, overall_status (fr.checks.map (·.status)) = Status.WARN) ∨
          (∃ c ∈ cross, c.status = Status.WARN)))) ∧
      ((run_validation files cross).gate = Gate.PROCEED ↔
        (¬((∃ fr ∈ files, overall_status (fr.checks.map (·.status)) = Status.FAIL) ∨
           (∃ c ∈ cross, c.status = Status.FAIL)) ∧
         ¬((∃ fr ∈ files, overall_status (fr.checks.map (·.status)) = Status.WARN) ∨
           (∃ c ∈ cross, c.status = Status.WARN))))) := by
  constructor
  · intro checks
    refine ⟨?_, ?_, ?_, ?_, ?_⟩
    · rw [overall_status, foldl_add_char]
      by_cases h1 : Status.FAIL ∈ checks <;> by_cases h2 : Status.WARN ∈ checks <;>
        simp [h1, h2]
    · rw [overall_status, foldl_add_char]
      by_cases h1 : Status.FAIL ∈ checks <;> by_cases h2 : Status.WARN ∈ checks <;>
        simp [h1, h2]
    · rw [overall_status, foldl_add_char]
      by_cases h1 : Status.FAIL ∈ checks <;> by_cases h2 : Status.WARN ∈ checks <;>
        simp [h1, h2]
    · rw [overall_status, foldl_add_char]
      simp
    · rw [overall_status, overall_status, foldl_add_char, foldl_add_char]
      by_cases h1 : Status.FAIL ∈ checks <;> by_cases h2 : Status.WARN ∈ checks <;>
        simp [h1, h2]
  · intro files cross h
    have hov := run_validation_overall files cross h
    have hg := run_validation_gate files cross
    have hmf : Status.FAIL ∈ files.map (fun fr => overall_status (fr.checks.map (·.status))) ↔
        (∃ fr ∈ files, overall_status (fr.checks.map (·.status)) = Status.FAIL) := by
      simp [List.mem_map, eq_comm]
    have hmw : Status.WARN ∈ files.map (fun fr => overall_status (fr.checks.map (·.status))) ↔
        (∃ fr ∈ files, overall_status (fr.checks.map (·.status)) = Status.WARN) := by
      simp [List.mem_map, eq_comm]
    have hcf : Status.FAIL ∈ cross.map (·.status) ↔ (∃ c ∈ cross, c.status = Status.FAIL) := by
      simp [List.mem_map, eq_comm]
    have hcw : Status.WARN ∈ cross.map (·.status) ↔ (∃ c ∈ cross, c.status = Status.WARN) := by
      simp [List.mem_map, eq_comm]
    rw [hg, hov]
    by_cases h1 : Status.FAIL ∈ files.map (fun fr => overall_status (fr.checks.map (·.status))) <;>
      by_cases h2 : Status.FAIL ∈ cross.map (·.status) <;>
      by_cases h3 : Status.WARN ∈ files.map (fun fr => overall_status (fr.checks.map (·.status))) <;>
      by_cases h4 : Status.WARN ∈ cross.map (·.status) <;>
      simp [h1, h2, h3, h4, hmf.symm, hmw.symm, hcf.symm, hcw.symm]

/-- Witness for the hypotheses of `gate_aggregation_spec`: a concrete
one-file, one-cross-check run with a WARN check gates to
PROCEED_WITH_CAVEATS, and appending WARN to a PASS list yields WARN. -/
theorem gate_aggregation_spec_witness :
    overall_status ([Status.PASS] ++ [Status.WARN]) = Status.WARN ∧
    (run_validation [⟨"f.csv", [⟨"c", Status.WARN, "m"⟩]⟩] []).gate =
      Gate.PROCEED_WITH_CAVEATS :=
  ⟨(gate_aggregation_spec.1 [Status.PASS]).2.2.2.2 (by decide),
   ((gate_aggregation_spec.2 [⟨"f.csv", [⟨"c", Status.WARN, "m"⟩]⟩] []
      (List.cons_ne_nil _ _)).2.1).2 (by decide)⟩

/-- C10: whenever the gate decision is PROCEED the caveats list is empty; and
whenever any file has a WARN check the gate is never PROCEED. -/
theorem proceed_gate_no_caveats :
    ∀ (files : List FileChecks) (cross : List ValidationResult),
      ((run_validation files cross).gate = Gate.PROCEED →
        (run_validation files cross).caveats = []) ∧
      ((∃ fr ∈ files, ∃ c ∈ fr.checks, c.status = Status.WARN) →
        (run_validation files cross).gate ≠ Gate.PROCEED) := by
  intro files cross
  by_cases hne : files = []
  · subst hne
    constructor
    · intro _
      simp [run_validation]
    · rintro ⟨fr, hfr, -⟩
      simp at hfr
  constructor
  · intro hgate
    have hov := run_validation_overall files cross hne
    have hg := run_validation_gate files cross
    rw [hg, hov] at hgate
    by_cases h1 : Status.FAIL ∈ files.map (fun fr => overall_status (fr.checks.map (·.status)))
        ∨ Status.FAIL ∈ cross.map (·.status)
    · rw [if_pos h1] at hgate
      simp at hgate
    by_cases h2 : Status.WARN ∈ files.map (fun fr => overall_status (fr.checks.map (·.status)))
        ∨ Status.WARN ∈ cross.map (·.status)
    · rw [if_neg h1, if_pos h2] at hgate
      simp at hgate
    push_neg at h1 h2
    -- every file aggregates to PASS, hence has no WARN checks
    have hfiles : ∀ fr ∈ files, fr.checks.filter (·.status = Status.WARN) = [] := by
      intro fr hfr
      have hnf : Status.FAIL ∉ fr.checks.map (·.status) ∧
          Status.WARN ∉ fr.checks.map (·.status) := by
        have ho : overall_status (fr.checks.map (·.status)) ≠ Status.FAIL := by
          intro he
          exact h1.1 (List.mem_map.mpr ⟨fr, hfr, he⟩)
        have ho2 : overall_status (fr.checks.map (·.status)) ≠ Status.WARN := by
          intro he
          exact h2.1 (List.mem_map.mpr ⟨fr, hfr, he⟩)
        rw [overall_status, foldl_add_char] at ho ho2
        by_cases hf : Status.FAIL ∈ fr.checks.map (·.status) <;>
          by_cases hw : Status.WARN ∈ fr.checks.map (·.status) <;>
          simp [hf, hw] at ho ho2 ⊢
      rw [List.filter_eq_nil_iff]
      intro c hc hs
      exact hnf.2 (List.mem_map.mpr ⟨c, hc, by simpa using hs⟩)
    have hcross : ∀ c ∈ cross, c.status ≠ Status.WARN := by
      intro c hc he
      exact h2.2 (List.mem_map.mpr ⟨c, hc, he⟩)
    have hne2 : files.isEmpty = false := by
      cases files with
      | nil => exact absurd rfl hne
      | cons a t => rfl
    show (if files.isEmpty then (⟨Status.PASS, Gate.PROCEED, []⟩ : RunResult) else _).caveats = []
    rw [hne2]
    simp only [Bool.false_eq_true, if_false]
    show (cross.foldl crossStep (files.foldl fileStep (Status.PASS, []))).2 = []
    rw [foldl_crossStep_snd_of _ _ hcross, foldl_fileStep_snd_of _ _ hfiles]
  · rintro ⟨fr, hfr, c, hc, hcw⟩ hgate
    have hov := run_validation_overall files cross hne
    have hg := run_validation_gate files cross
    have hwmem : Status.WARN ∈ fr.checks.map (·.status) := List.mem_map.mpr ⟨c, hc, hcw⟩
    have hagg : overall_status (fr.checks.map (·.status)) = Status.FAIL ∨
        overall_status (fr.checks.map (·.status)) = Status.WARN := by
      rw [overall_status, foldl_add_char]
      by_cases hf : Status.FAIL ∈ fr.checks.map (·.status) <;> simp [hf, hwmem]
    rw [hg, hov] at hgate
    rcases hagg with hagg | hagg
    · have hmem : Status.FAIL ∈ files.map (fun fr => overall_status (fr.checks.map (·.status))) :=
        List.mem_map.mpr ⟨fr, hfr, hagg⟩
      rw [if_pos (Or.inl hmem)] at hgate
      simp at hgate
    · have hww : Status.WARN ∈ files.map (fun fr => overall_status (fr.checks.map (·.status))) :=
        List.mem_map.mpr ⟨fr, hfr, hagg⟩
      by_cases h1 : Status.FAIL ∈ files.map (fun fr => overall_status (fr.checks.map (·.status)))
          ∨ Status.FAIL ∈ cross.map (·.status)
      · rw [if_pos h1] at hgate
        simp at hgate
      · rw [if_neg h1, if_pos (Or.inl hww)] at hgate
        simp at hgate

/-- Witness for `proceed_gate_no_caveats`: on a concrete PASS-only run the
gate is PROCEED and the caveats list is indeed empty. -/
theorem proceed_gate_no_caveats_witness :
    (run_validation [⟨"f.csv", [⟨"c", Status.PASS, "m"⟩]⟩] []).caveats = [] :=
  (proceed_gate_no_caveats [⟨"f.csv", [⟨"c", Status.PASS, "m"⟩]⟩] []).1 (by rfl)

/-! ### `validate_sanity` (validate_data.py lines 339-470)

A data frame is modelled by its columns that the sanity checks consult;
`none` for a column means the column is absent from the frame, `none` for a
cell means NaN.  Python floats are idealized as rationals.  A raised Python
exception is modelled as `Except.error ()`. -/

/-- The columns of a data frame that `validate_sanity` can consult.
A `none` column is absent (its checks are skipped). -/
structure Df where
  CTR : Option (List (Option ℚ)) := none
  Clicks : Option (List (Option ℚ)) := none
  Impressions : Option (List (Option ℚ)) := none
  Cost : Option (List (Option ℚ)) := none
  Conversions : Option (List (Option ℚ)) := none
  ConversionValue : Option (List (Option ℚ)) := none
  Revenue : Option (List (Option ℚ)) := none
  Position : Option (List (Option ℚ)) := none
  Commission : Option (List (Option ℚ)) := none
  ViewableImpressions : Option (List (Option ℚ)) := none
  Date : Option (List (Option String)) := none
  deriving Repr

/-- Configured `[min, max]` bounds of one sanity check
(from data-quality-rules.yaml; a missing key is `none`). -/
structure Bounds where
  min : Option ℚ := none
  max : Option ℚ := none
  deriving DecidableEq, Repr

/-- Elementwise series division with the code's zero handling
(`x / y.replace(0, nan)`): a zero denominator or a NaN operand yields NaN. -/
def divSeries (a b : List (Option ℚ)) : List (Option ℚ) :=
  a.zipWith (fun x y =>
    match x, y with
    | some x, some y => if y = 0 then none else some (x / y)
    | _, _ => none) b

/-- `df.groupby("Date")["Cost"].sum()` (line 434): per distinct non-null date,
the NaN-skipping sum of the Cost cells on that date. -/
def dailySpend (dates : List (Option String)) (costs : List (Option ℚ)) : List ℚ :=
  (dates.filterMap id).dedup.map (fun d =>
    ((dates.zip costs).filterMap (fun p =>
      match p with
      | (some e, some c) => if e = d then some c else none
      | _ => none)).sum)

/-- Maximum of a list of rationals (`Series.max()`); `none` on an empty
series (pandas NaN, which compares false against any bound). -/
def maxQ : List ℚ → Option ℚ
  | [] => none
  | h :: t => some (t.foldl max h)

/-- The series each named sanity check is computed from (lines 365-431):
`none` when the columns the check needs are absent, in which case the check
is skipped. -/
def colData (df : Df) (check : String) : Option (List (Option ℚ)) :=
  if check = "ctr" then
    match df.CTR with
    | some v => some v
    | none =>
      match df.Clicks, df.Impressions with
      | some cl, some im => some (divSeries cl im)
      | _, _ => none
  else if check = "cpc" then
    match df.Cost, df.Clicks with
    | some c, some cl => some (divSeries c cl)
    | _, _ => none
  else if check = "cvr" then
    match df.Conversions, df.Clicks with
    | some cv, some cl => some (divSeries cv cl)
    | _, _ => none
  else if check = "roas" then
    match df.ConversionValue, df.Cost with
    | some r, some c => some (divSeries r c)
    | _, _ =>
      match df.Revenue, df.Cost with
      | some r, some c => some (divSeries r c)
      | _, _ => none
  else if check = "position" then df.Position
  else if check = "commission_rate" then
    match df.Commission, df.Revenue with
    | some cm, some r => some (divSeries cm r)
    | _, _ => none
  else if check = "epc" then
    match df.Revenue, df.Clicks with
    | some r, some cl => some (divSeries r cl)
    | _, _ => none
  else if check = "cpm" then
    match df.Cost, df.Impressions with
    | some c, some im => some ((divSeries c im).map (Option.map (· * 1000)))
    | _, _ => none
  else if check = "viewability" then
    match df.ViewableImpressions, df.Impressions with
    | some v, some im => some (divSeries v im)
    | _, _ => none
  else none

/-- A recorded sanity violation (the strings appended to `violations` at
lines 451-454, kept structured instead of formatted). -/
inductive SanityViolation
  | belowMin (check_name : String) (count : Nat) (bound : ℚ)
  | aboveMax (check_name : String) (count : Nat) (bound : ℚ)
  deriving DecidableEq, Repr

/-- One iteration of the check loop of `validate_sanity` (lines 357-454).
The `daily_spend_max` branch (lines 432-440) mirrors the code exactly: when
the max daily spend exceeds the configured max, the code evaluates
`f"... exceeds ${bounds:,}"`, which formats the `bounds` dict with a numeric
format spec and raises `TypeError`; when the `max` key is absent,
`max_daily > bounds.get("max", bounds)` compares a float against the dict
and also raises.  Both raises are `Except.error ()`. -/
def sanityStep (df : Df) (vs : List SanityViolation) (check : String) (bounds : Bounds) :
    Except Unit (List SanityViolation) :=
  if check = "daily_spend_max" then
    match df.Cost, df.Date with
    | some costs, some dates =>
      match maxQ (dailySpend dates costs) with
      | none => .ok vs
      | some m =>
        match bounds.max with
        | some mx => if mx < m then .error () else .ok vs
        | none => .error ()
    | _, _ => .ok vs
  else
    match colData df check with
    | none => .ok vs
    | some col =>
      let vals := col.filterMap id
      if vals.isEmpty then .ok vs
      else
        let vs := match bounds.min with
          | some mn =>
            if 0 < vals.countP (fun v => decide (v < mn)) then
              vs ++ [.belowMin check (vals.countP (fun v => decide (v < mn))) mn]
            else vs
          | none => vs
        let vs := match bounds.max with
          | some mx =>
            if 0 < vals.countP (fun v => decide (mx < v)) then
              vs ++ [.aboveMax check (vals.countP (fun v => decide (mx < v))) mx]
            else vs
          | none => vs
        .ok vs

/-- `validate_sanity` (lines 339-470).  `rules = none` models a source with
no entry in the rules config (lines 343-349, a lone WARN result); otherwise
the configured checks are folded in order and a single WARN (violations
found) or PASS result is produced.  `Except.error ()` is a raised
exception. -/
def validate_sanity (df : Df) (rules : Option (List (String × Bounds))) :
    Except Unit (List ValidationResult) :=
  match rules with
  | none => .ok [⟨"sanity_checks", Status.WARN, "No sanity rules defined for source"⟩]
  | some sanity_checks => do
    let violations ← sanity_checks.foldlM
      (fun vs p => sanityStep df vs p.1 p.2) ([] : List SanityViolation)
    if violations.isEmpty then
      pure [⟨"sanity_checks", Status.PASS, "All sanity checks passed"⟩]
    else
      pure [⟨"sanity_checks", Status.WARN,
        toString violations.length ++ " sanity check violations"⟩]

/-- A one-row frame with `Cost = 200` on date 2026-01-01, validated against a
`daily_spend_max` rule with `max = 100`. -/
def dailySpendCrashDf : Df := { Cost := some [some 200], Date := some [some "2026-01-01"] }

/-- C2 (code bug): on a frame whose max daily spend (200) exceeds the
configured `daily_spend_max` bound (100), `validate_sanity` raises instead
of reporting a WARN violation: the violation message formats the `bounds`
dict with a numeric format spec (line 437), a `TypeError`.  The spec says
bounds violations are always reported as WARN and that the function never
raises. -/
theorem validate_sanity_daily_spend_raises :
    validate_sanity dailySpendCrashDf
      (some [("daily_spend_max", { max := some 100 })]) = .error () := by
  have hd : dailySpend [some "2026-01-01"] [some (200 : ℚ)] = [200] := by
    simp [dailySpend]
  have h2 : maxQ (dailySpend [some "2026-01-01"] [some 200]) = some 200 := by
    rw [hd]; rfl
  have h : sanityStep dailySpendCrashDf [] "daily_spend_max" { max := some 100 } = .error () := by
    simp [sanityStep, dailySpendCrashDf, h2]
    norm_num
  simp only [validate_sanity, List.foldlM, h]
  rfl

end ValidateData

namespace RunAnalysis

/-- `str.lower()` on the character list of a string (ASCII data). -/
def lowerStr (s : String) : String := String.mk (s.toList.map Char.toLower)

/-- Python's `str.strip()`: drop leading and trailing whitespace. -/
def stripWs (cs : List Char) : List Char :=
  ((cs.dropWhile Char.isWhitespace).reverse.dropWhile Char.isWhitespace).reverse

/-- `query.lower().strip()` (run_analysis.py line 284). -/
def normalizeQuery (s : String) : String :=
  String.mk (stripWs (s.toList.map Char.toLower))

/-- Python's substring test `needle in hay` on character lists. -/
def substrIn : List Char → List Char → Bool
  | needle, [] => needle.isEmpty
  | needle, c :: t => needle.isPrefixOf (c :: t) || substrIn needle t

/-- `kw in query_lower`: keyword `kw` occurs as a substring of `q`. -/
def keywordIn (kw q : String) : Bool := substrIn kw.toList q.toList

/-- One entry of `ROUTING_TABLE` (run_analysis.py lines 144-249). -/
structure Route where
  keywords : List String
  channels : List String
  self_contained : Bool := false
  all_channels : Bool := false
  deriving DecidableEq, Repr

/-- `ROUTING_TABLE` (run_analysis.py lines 144-249), in declaration order. -/
def ROUTING_TABLE : List Route := [
  { keywords := ["sem", "google ads", "paid search", "cpc", "roas", "search ads", "adwords"],
    channels := ["sem"] },
  { keywords := ["brand campaign", "branded", "brand search"],
    channels := ["brand_campaign"] },
  { keywords := ["display", "programmatic", "dv360", "cpm", "banner", "viewability"],
    channels := ["display"] },
  { keywords := ["paid social", "social ads", "facebook ads", "instagram ads", "tiktok ads"],
    channels := ["promoted_social"] },
  { keywords := ["metasearch", "hotel ads", "tripadvisor", "trivago", "kayak"],
    channels := ["metasearch"] },
  { keywords := ["affiliate", "publisher", "commission", "epc"],
    channels := ["affiliate"] },
  { keywords := ["email", "newsletter", "mailchimp", "braze", "email marketing"],
    channels := ["email"] },
  { keywords := ["push", "push notification", "app notification", "mobile push"],
    channels := ["push_notification"] },
  { keywords := ["sms", "text message", "mms"],
    channels := ["sms"] },
  { keywords := ["crm", "lifecycle", "managed channels", "owned channels", "retention"],
    channels := ["email", "push_notification", "sms"] },
  { keywords := ["seo", "organic search", "rankings", "gsc", "search console", "position",
                 "crawl", "indexing", "page speed", "core web vitals", "technical seo"],
    channels := ["seo"] },
  { keywords := ["organic social", "social media", "community", "managed social"],
    channels := ["managed_social"] },
  { keywords := ["referral", "word of mouth", "organic referral"],
    channels := ["free_referral"] },
  { keywords := ["distribution", "white label", "syndication"],
    channels := ["distribution"] },
  { keywords := ["referral program", "refer a friend", "user referral", "referral incentive"],
    channels := ["paid_user_referral"] },
  { keywords := ["pricing", "promo", "promotion", "discount", "coupon", "voucher",
                 "deal impact", "offer", "sale event", "promo roi", "promo impact"],
    channels := ["promo"] },
  { keywords := ["incrementality", "incrementality test", "mroas", "troas test", "split test"],
    channels := ["sem-incrementality"], self_contained := true },
  { keywords := ["paid", "paid channels", "paid media"],
    channels := ["sem", "brand_campaign", "display", "promoted_social", "metasearch", "affiliate"] },
  { keywords := ["organic", "organic channels"],
    channels := ["seo", "free_referral", "managed_social"] },
  { keywords := ["overall", "all channels", "mix", "compare channels", "total",
                 "blended", "portfolio"],
    channels := [], all_channels := true },
  { keywords := ["budget", "pacing", "spend"],
    channels := ["sem", "display", "metasearch", "affiliate"] },
  { keywords := ["anomal", "alert", "flag", "unusual"],
    channels := [], all_channels := true }]

/-- `CHANNEL_GROUPS` (run_analysis.py lines 51-67): channel id → group id. -/
def CHANNEL_GROUPS : List (String × String) := [
  ("sem", "paid"),
  ("brand_campaign", "paid"),
  ("display", "paid"),
  ("promoted_social", "paid"),
  ("metasearch", "paid"),
  ("affiliate", "paid"),
  ("email", "lifecycle"),
  ("push_notification", "lifecycle"),
  ("sms", "lifecycle"),
  ("seo", "organic"),
  ("free_referral", "organic"),
  ("managed_social", "organic"),
  ("distribution", "distribution"),
  ("paid_user_referral", "distribution"),
  ("promo", "pricing")]

/-- `GROUP_SYNTHESIS_MAP` (run_analysis.py lines 95-101): group id → synthesis
agent path, `none` for the deliberately agent-less "pricing" group. -/
def GROUP_SYNTHESIS_MAP : List (String × Option String) := [
  ("paid", some "agents/paid/synthesis.md"),
  ("lifecycle", some "agents/lifecycle/synthesis.md"),
  ("organic", some "agents/organic/synthesis.md"),
  ("distribution", some "agents/distribution/synthesis.md"),
  ("pricing", none)]

/-- The number of keywords of a routing entry that occur as substrings of the
(lowercased, stripped) query — `match_count` at line 291. -/
def matchCount (q : String) (r : Route) : Nat := r.keywords.countP (fun kw => keywordIn kw q)

/-- The keyword-matching loop of `classify_query` (run_analysis.py lines
287-294): fold over the routing table keeping the first entry whose keyword
count strictly exceeds the best count so far (starting from None, 0). -/
def bestRoute (q : String) : Option Route × Nat :=
  ROUTING_TABLE.foldl (fun acc route =>
    if matchCount q route > acc.2 then (some route, matchCount q route) else acc)
    (none, 0)

/-- The classification record built by `classify_query` (the routing fields;
the independently computed template / date-range / comparison / geo fields
are separate functions of the query and are not needed for the routing
claims).  Python builds `groups` as a `set`, whose iteration order is
unspecified; it is modelled as first-occurrence dedup — the claims only use
its underlying set (in fact only its emptiness). -/
structure Classification where
  channels : List String
  groups : List String
  self_contained : Bool
  all_channels : Bool
  match_type : String
  deriving DecidableEq, Repr

/-- The fallback classification (lines 307-314). -/
def fallbackClassification : Classification :=
  { channels := [], groups := [], self_contained := false,
    all_channels := false, match_type := "fallback" }

/-- `classify_query` (run_analysis.py lines 268-328), routing fields. -/
def classify_query (query : String) : Classification :=
  let query_lower := normalizeQuery query
  match bestRoute query_lower with
  | (some route, n) =>
    if 0 < n then
      { channels := route.channels,
        groups := (route.channels.filterMap (fun ch => CHANNEL_GROUPS.lookup ch)).dedup,
        self_contained := route.self_contained,
        all_channels := route.all_channels,
        match_type := "keyword" }
    else fallbackClassification
  | (none, _) => fallbackClassification

/-- The maximum keyword count over a list of routing entries. -/
def maxCountList (q : String) (l : List Route) : Nat :=
  (l.map (matchCount q)).foldr max 0

theorem le_maxCountList (q : String) {l : List Route} {r : Route} (h : r ∈ l) :
    matchCount q r ≤ maxCountList q l := by
  induction l with
  | nil => cases h
  | cons a t ih =>
    rcases List.mem_cons.mp h with h | h
    · subst h
      exact Nat.le_max_left _ _
    · exact le_trans (ih h) (Nat.le_max_right _ _)

theorem maxCountList_le (q : String) {l : List Route} {c : Nat}
    (h : ∀ r ∈ l, matchCount q r ≤ c) : maxCountList q l ≤ c := by
  induction l with
  | nil => exact Nat.zero_le c
  | cons a t ih =>
    have := h a (List.mem_cons_self _ _)
    have ht := ih (fun r hr => h r (List.mem_cons_of_mem _ hr))
    simp only [maxCountList, List.map_cons, List.foldr_cons] at *
    omega

/-- Invariant of the best-match fold: it returns the running maximum and, when
the list improves on the incoming count, the first entry attaining the list
maximum. -/
theorem foldl_best_invariant (q : String) (l : List Route) (b : Option Route) (c : Nat) :
    l.foldl (fun acc route =>
        if matchCount q route > acc.2 then (some route, matchCount q route) else acc) (b, c) =
      (if maxCountList q l ≤ c then b
       else l.find? (fun r => matchCount q r = maxCountList q l),
       max c (maxCountList q l)) := by
  induction l generalizing b c with
  | nil => simp [maxCountList]
  | cons r t ih =>
    have hm : maxCountList q (r :: t) = max (matchCount q r) (maxCountList q t) := by
      simp [maxCountList]
    rw [List.foldl_cons]
    by_cases hc : matchCount q r > c
    · rw [if_pos hc, ih]
      by_cases hmt : maxCountList q t ≤ matchCount q r
      · have h1 : maxCountList q (r :: t) = matchCount q r := by omega
        have h2 : ¬ maxCountList q (r :: t) ≤ c := by omega
        rw [if_pos hmt, if_neg h2, h1]
        have hfind : (r :: t).find? (fun x => matchCount q x = matchCount q r) = some r := by
          rw [List.find?_cons_of_pos]
          simp
        rw [hfind]
        have hb : max (matchCount q r) (maxCountList q t) = max c (matchCount q r) := by omega
        rw [hb]
      · have h1 : maxCountList q (r :: t) = maxCountList q t := by omega
        have h2 : ¬ maxCountList q (r :: t) ≤ c := by omega
        rw [if_neg hmt, if_neg h2, h1]
        have hfind : (r :: t).find? (fun x => matchCount q x = maxCountList q t) =
            t.find? (fun x => matchCount q x = maxCountList q t) := by
          rw [List.find?_cons_of_neg]
          simp only [decide_eq_true_eq]
          omega
        rw [hfind]
        have hb : max (matchCount q r) (maxCountList q t) = max c (maxCountList q t) := by omega
        rw [hb]
    · rw [if_neg hc, ih]
      push_neg at hc
      by_cases hmt : maxCountList q t ≤ c
      · have h1 : maxCountList q (r :: t) ≤ c := by omega
        rw [if_pos hmt, if_pos h1]
        have hb : max c (maxCountList q t) = max c (maxCountList q (r :: t)) := by omega
        rw [hb]
      · have h1 : ¬ maxCountList q (r :: t) ≤ c := by omega
        have h2 : maxCountList q (r :: t) = maxCountList q t := by omega
        rw [if_neg hmt, if_neg h1, h2]
        have hfind : (r :: t).find? (fun x => matchCount q x = maxCountList q t) =
            t.find? (fun x => matchCount q x = maxCountList q t) := by
          rw [List.find?_cons_of_neg]
          simp only [decide_eq_true_eq]
          omega
        rw [hfind]

/-- `find?` returns the element at index `i` when it satisfies the predicate
and all earlier elements do not. -/
theorem find?_eq_get {α : Type} (l : List α) (p : α → Bool) (i : Fin l.length)
    (hi : p (l.get i) = true)
    (hj : ∀ j : Fin l.length, (j : ℕ) < (i : ℕ) → p (l.get j) = false) :
    l.find? p = some (l.get i) := by
  induction l with
  | nil => exact absurd i.2 (by simp)
  | cons a t ih =>
    rcases i with ⟨k, hk⟩
    cases k with
    | zero =>
      exact List.find?_cons_of_pos _ hi
    | succ m =>
      have ha : p a = false := hj ⟨0, Nat.succ_pos _⟩ (Nat.succ_pos m)
      rw [List.find?_cons_of_neg _ (by simp [ha])]
      exact ih ⟨m, Nat.lt_of_succ_lt_succ hk⟩ hi
        (fun j hjm => hj ⟨j + 1, Nat.succ_lt_succ j.2⟩ (Nat.succ_lt_succ hjm))

/-- The best match of `classify_query` is the earliest routing entry attaining
the positive maximum keyword count (or none when every count is zero). -/
theorem bestRoute_eq (q : String) :
    bestRoute q =
      (if maxCountList q ROUTING_TABLE ≤ 0 then none
       else ROUTING_TABLE.find? (fun r => matchCount q r = maxCountList q ROUTING_TABLE),
       maxCountList q ROUTING_TABLE) := by
  rw [bestRoute, foldl_best_invariant]
  simp

/-- C6: keyword routing counts, for each routing entry, how many of its
keywords occur as substrings of the lowercased query; the entry with the
strictly highest count determines the channel list, ties keep the earliest
entry in the table, and with no keyword match at all the classification is
"fallback" with empty channel and group lists.  The second conjunct covers
both the strict-highest and the tie case: the earliest entry attaining the
(positive) maximum count wins. -/
theorem classify_query_spec (query : String) :
    ((∀ r ∈ ROUTING_TABLE, matchCount (normalizeQuery query) r = 0) →
      (classify_query query).match_type = "fallback" ∧
      (classify_query query).channels = [] ∧
      (classify_query query).groups = []) ∧
    (∀ i : Fin ROUTING_TABLE.length,
      0 < matchCount (normalizeQuery query) (ROUTING_TABLE.get i) →
      (∀ j : Fin ROUTING_TABLE.length,
        matchCount (normalizeQuery query) (ROUTING_TABLE.get j) ≤
          matchCount (normalizeQuery query) (ROUTING_TABLE.get i)) →
      (∀ j : Fin ROUTING_TABLE.length, (j : ℕ) < (i : ℕ) →
        matchCount (normalizeQuery query) (ROUTING_TABLE.get j) <
          matchCount (normalizeQuery query) (ROUTING_TABLE.get i)) →
      (classify_query query).channels = (ROUTING_TABLE.get i).channels ∧
      (classify_query query).match_type = "keyword") := by
  set ql := normalizeQuery query with hql
  constructor
  · intro hzero
    have hmax : maxCountList ql ROUTING_TABLE = 0 :=
      Nat.le_antisymm (maxCountList_le ql (fun r hr => le_of_eq (hzero r hr))) (Nat.zero_le _)
    have hbr : bestRoute ql = (none, 0) := by
      rw [bestRoute_eq, hmax]
      simp
    have hcq : classify_query query = fallbackClassification := by
      simp only [classify_query]
      rw [← hql]
      simp only [hbr]
    rw [hcq]
    exact ⟨rfl, rfl, rfl⟩
  · intro i hpos hmax hearlier
    have hM : maxCountList ql ROUTING_TABLE = matchCount ql (ROUTING_TABLE.get i) := by
      refine Nat.le_antisymm (maxCountList_le ql ?_)
        (le_maxCountList ql (List.get_mem ROUTING_TABLE i.1 i.2))
      intro r hr
      rcases List.mem_iff_get.mp hr with ⟨j, rfl⟩
      exact hmax j
    have hfind : ROUTING_TABLE.find?
        (fun r => matchCount ql r = maxCountList ql ROUTING_TABLE) =
          some (ROUTING_TABLE.get i) := by
      refine find?_eq_get _ _ i ?_ ?_
      · simp [hM]
      · intro j hji
        have := hearlier j hji
        simp only [decide_eq_false_iff_not]
        omega
    have hbr : bestRoute ql =
        (some (ROUTING_TABLE.get i), matchCount ql (ROUTING_TABLE.get i)) := by
      rw [bestRoute_eq, if_neg (by omega), hfind, hM]
    have : classify_query query =
        { channels := (ROUTING_TABLE.get i).channels,
          groups := ((ROUTING_TABLE.get i).channels.filterMap
            (fun ch => CHANNEL_GROUPS.lookup ch)).dedup,
          self_contained := (ROUTING_TABLE.get i).self_contained,
          all_channels := (ROUTING_TABLE.get i).all_channels,
          match_type := "keyword" } := by
      simp only [classify_query]
      rw [← hql]
      simp only [hbr]
      rw [if_pos hpos]
    rw [this]
    exact ⟨rfl, rfl⟩

/-- Witness for `classify_query_spec`: the query "How is email performing?"
matches only the email entry (index 6) and classifies to channels ["email"]
with match type "keyword"; a no-keyword query falls back. -/
theorem classify_query_spec_witness :
    (classify_query "How is email performing?").channels = ["email"] ∧
    (classify_query "How is email performing?").match_type = "keyword" ∧
    (classify_query "xyzzyq").match_type = "fallback" :=
  ⟨((classify_query_spec "How is email performing?").2 ⟨6, by decide⟩
      (by decide) (by decide) (by decide)).1,
   ((classify_query_spec "How is email performing?").2 ⟨6, by decide⟩
      (by decide) (by decide) (by decide)).2,
   ((classify_query_spec "xyzzyq").1 (by decide)).1⟩

/-! ### `determine_synthesis_levels` (run_analysis.py lines 466-488) -/

/-- Appending a channel to its group's entry of the `channels_per_group`
association list (`setdefault(group, []).append(ch)`): update the existing
entry in place, or append a new `(g, [ch])` entry at the end. -/
def addToGroup : List (String × List String) → String → String → List (String × List String)
  | [], g, ch => [(g, [ch])]
  | (g', chs) :: t, g, ch =>
    if g' = g then (g', chs ++ [ch]) :: t else (g', chs) :: addToGroup t g ch

/-- The `channels_per_group` dict of `determine_synthesis_levels` (lines
472-476), as an association list in key insertion order: channels with no
entry in `CHANNEL_GROUPS` are skipped. -/
def channels_per_group (active : List String) : List (String × List String) :=
  active.foldl (fun acc ch =>
    match CHANNEL_GROUPS.lookup ch with
    | some g => addToGroup acc g ch
    | none => acc) []

/-- `determine_synthesis_levels` (lines 466-488): the groups with ≥ 2 active
channels and a configured (non-None) synthesis agent, and whether ≥ 2
distinct groups are active. -/
def determine_synthesis_levels (active : List String) : List String × Bool :=
  let cpg := channels_per_group active
  let group_synthesis := (cpg.filter (fun p =>
    decide (2 ≤ p.2.length) && ((GROUP_SYNTHESIS_MAP.lookup p.1).join.isSome))).map (·.1)
  (group_synthesis, decide (2 ≤ cpg.length))

/-- The active channels of group `g`: the sublist of `active` whose
`CHANNEL_GROUPS` entry is `g`. -/
def groupChannels (active : List String) (g : String) : List String :=
  active.filter (fun ch => decide (CHANNEL_GROUPS.lookup ch = some g))

theorem lookup_cons {β : Type} (a k : String) (v : β) (t : List (String × β)) :
    List.lookup a ((k, v) :: t) = if a = k then some v else List.lookup a t := by
  by_cases h : a = k
  · subst h
    simp [List.lookup]
  · have hb : (a == k) = false := beq_eq_false_iff_ne.mpr h
    simp [List.lookup, hb, h]

theorem addToGroup_lookup (acc : List (String × List String)) (g ch g' : String) :
    (addToGroup acc g ch).lookup g' =
      if g' = g then some (((acc.lookup g).getD []) ++ [ch]) else acc.lookup g' := by
  induction acc with
  | nil =>
    by_cases h : g' = g
    · subst h
      simp [addToGroup, lookup_cons]
    · simp [addToGroup, lookup_cons, h]
  | cons p t ih =>
    rcases p with ⟨k, v⟩
    by_cases hk : k = g
    · subst hk
      have hadd : addToGroup ((k, v) :: t) k ch = (k, v ++ [ch]) :: t := by
        simp [addToGroup]
      rw [hadd, lookup_cons, lookup_cons k k v t, if_pos rfl]
      by_cases h : g' = k
      · subst h
        rw [if_pos rfl, if_pos rfl]
        rfl
      · rw [if_neg h, if_neg h, lookup_cons, if_neg h]
    · simp only [addToGroup, if_neg hk]
      rw [lookup_cons]
      have hgl : List.lookup g ((k, v) :: t) = List.lookup g t := by
        rw [lookup_cons, if_neg (fun hc => hk hc.symm)]
      rw [hgl, lookup_cons g' k v t]
      by_cases h : g' = k
      · have hgg : g' ≠ g := by
          rw [h]
          exact hk
        rw [if_pos h, if_neg hgg, if_pos h]
      · rw [if_neg h, if_neg h, ih]

theorem addToGroup_keys (acc : List (String × List String)) (g ch : String) :
    (addToGroup acc g ch).map (·.1) =
      if g ∈ acc.map (·.1) then acc.map (·.1) else acc.map (·.1) ++ [g] := by
  induction acc with
  | nil => simp [addToGroup]
  | cons p t ih =>
    rcases p with ⟨k, v⟩
    by_cases hk : k = g
    · subst hk
      simp [addToGroup]
    · have hne : g ≠ k := fun hc => hk hc.symm
      simp only [addToGroup, if_neg hk, List.map_cons, List.mem_cons]
      rw [ih]
      by_cases hc : g ∈ t.map (·.1) <;> simp [hc, hne]

/-- The grouping step of `determine_synthesis_levels` (lines 473-476). -/
def groupStep (acc : List (String × List String)) (ch : String) : List (String × List String) :=
  match CHANNEL_GROUPS.lookup ch with
  | some g => addToGroup acc g ch
  | none => acc

theorem channels_per_group_eq_foldl (active : List String) :
    channels_per_group active = active.foldl groupStep [] := rfl

theorem foldl_groupStep_lookup (l : List String) (acc : List (String × List String))
    (g : String) :
    (l.foldl groupStep acc).lookup g =
      match acc.lookup g with
      | some chs => some (chs ++ groupChannels l g)
      | none => if groupChannels l g = [] then none else some (groupChannels l g) := by
  induction l generalizing acc with
  | nil => cases h : acc.lookup g <;> simp [groupChannels, h]
  | cons ch t ih =>
    rw [List.foldl_cons]
    cases hch : CHANNEL_GROUPS.lookup ch with
    | none =>
      have hstep : groupStep acc ch = acc := by simp [groupStep, hch]
      have hgc : groupChannels (ch :: t) g = groupChannels t g := by
        simp only [groupChannels, List.filter_cons]
        rw [if_neg (by simp [hch])]
      rw [hstep, ih, hgc]
    | some g0 =>
      have hstep : groupStep acc ch = addToGroup acc g0 ch := by simp [groupStep, hch]
      rw [hstep, ih]
      by_cases hg : g = g0
      · subst hg
        have hgc : groupChannels (ch :: t) g = ch :: groupChannels t g := by
          simp only [groupChannels, List.filter_cons]
          rw [if_pos (by simp [hch])]
        rw [hgc, addToGroup_lookup, if_pos rfl]
        cases h : acc.lookup g <;> simp [h]
      · have hg2 : g0 ≠ g := fun hc => hg hc.symm
        have hgc : groupChannels (ch :: t) g = groupChannels t g := by
          simp only [groupChannels, List.filter_cons]
          rw [if_neg (by simp [hch, hg2])]
        rw [hgc, addToGroup_lookup, if_neg hg]

theorem foldl_groupStep_keys_nodup (l : List String) (acc : List (String × List String))
    (h : (acc.map (·.1)).Nodup) : ((l.foldl groupStep acc).map (·.1)).Nodup := by
  induction l generalizing acc with
  | nil => exact h
  | cons ch t ih =>
    rw [List.foldl_cons]
    refine ih _ ?_
    cases hch : CHANNEL_GROUPS.lookup ch with
    | none => simpa [groupStep, hch] using h
    | some g0 =>
      have hstep : groupStep acc ch = addToGroup acc g0 ch := by simp [groupStep, hch]
      rw [hstep, addToGroup_keys]
      by_cases hc : g0 ∈ acc.map (·.1)
      · rwa [if_pos hc]
      · rw [if_neg hc]
        simp [List.nodup_append, h, hc]

theorem foldl_groupStep_keys_mem (l : List String) (acc : List (String × List String))
    (g : String) :
    g ∈ (l.foldl groupStep acc).map (·.1) ↔
      g ∈ acc.map (·.1) ∨ groupChannels l g ≠ [] := by
  induction l generalizing acc with
  | nil => simp [groupChannels]
  | cons ch t ih =>
    rw [List.foldl_cons]
    cases hch : CHANNEL_GROUPS.lookup ch with
    | none =>
      have hstep : groupStep acc ch = acc := by simp [groupStep, hch]
      have hgc : groupChannels (ch :: t) g = groupChannels t g := by
        simp only [groupChannels, List.filter_cons]
        rw [if_neg (by simp [hch])]
      rw [hstep, ih, hgc]
    | some g0 =>
      have hstep : groupStep acc ch = addToGroup acc g0 ch := by simp [groupStep, hch]
      rw [hstep, ih]
      have hmem : g ∈ (addToGroup acc g0 ch).map (·.1) ↔ g ∈ acc.map (·.1) ∨ g = g0 := by
        rw [addToGroup_keys]
        by_cases hc : g0 ∈ acc.map (·.1)
        · rw [if_pos hc]
          constructor
          · exact Or.inl
          · rintro (h | rfl)
            · exact h
            · exact hc
        · rw [if_neg hc]
          simp
      rw [hmem]
      by_cases hg : g = g0
      · subst hg
        have hgc : groupChannels (ch :: t) g = ch :: groupChannels t g := by
          simp only [groupChannels, List.filter_cons]
          rw [if_pos (by simp [hch])]
        simp [hgc]
      · have hg2 : g0 ≠ g := fun hc => hg hc.symm
        have hgc : groupChannels (ch :: t) g = groupChannels t g := by
          simp only [groupChannels, List.filter_cons]
          rw [if_neg (by simp [hch, hg2])]
        simp [hgc, hg]

theorem mem_iff_lookup {β : Type} (l : List (String × β)) (h : (l.map (·.1)).Nodup)
    (g : String) (v : β) : (g, v) ∈ l ↔ l.lookup g = some v := by
  induction l with
  | nil => simp [List.lookup]
  | cons p t ih =>
    rcases p with ⟨k, w⟩
    simp only [List.map_cons, List.nodup_cons] at h
    rw [lookup_cons, List.mem_cons]
    by_cases hg : g = k
    · subst hg
      rw [if_pos rfl]
      constructor
      · rintro (hp | hp)
        · simp at hp
          rw [hp]
        · exact absurd (List.mem_map.mpr ⟨(g, v), hp, rfl⟩) h.1
      · intro hv
        simp only [Option.some.injEq] at hv
        exact Or.inl (by rw [hv])
    · rw [if_neg hg, ← ih h.2]
      simp [hg, Prod.ext_iff]

/-- The lookup of `channels_per_group`. -/
theorem channels_per_group_lookup (active : List String) (g : String) :
    (channels_per_group active).lookup g =
      if groupChannels active g = [] then none else some (groupChannels active g) := by
  rw [channels_per_group_eq_foldl, foldl_groupStep_lookup]
  simp [List.lookup]

theorem channels_per_group_keys_nodup (active : List String) :
    ((channels_per_group active).map (·.1)).Nodup := by
  rw [channels_per_group_eq_foldl]
  exact foldl_groupStep_keys_nodup active [] (by simp)

theorem channels_per_group_mem (active : List String) (g : String) (chs : List String) :
    (g, chs) ∈ channels_per_group active ↔
      groupChannels active g ≠ [] ∧ chs = groupChannels active g := by
  rw [mem_iff_lookup _ (channels_per_group_keys_nodup active), channels_per_group_lookup]
  by_cases h : groupChannels active g = [] <;> simp [h, eq_comm]

theorem channels_per_group_length (active : List String) :
    (channels_per_group active).length =
      (active.filterMap (fun ch => CHANNEL_GROUPS.lookup ch)).toFinset.card := by
  have hlen : (channels_per_group active).length =
      ((channels_per_group active).map (·.1)).length := (List.length_map _ _).symm
  rw [hlen, ← List.toFinset_card_of_nodup (channels_per_group_keys_nodup active)]
  congr 1
  apply Finset.ext
  intro g
  simp only [List.mem_toFinset]
  rw [channels_per_group_eq_foldl, foldl_groupStep_keys_mem]
  simp only [List.map_nil, List.not_mem_nil, false_or, List.mem_filterMap]
  constructor
  · intro h
    have : ∃ ch ∈ active, decide (CHANNEL_GROUPS.lookup ch = some g) = true := by
      by_contra hc
      push_neg at hc
      exact h (List.filter_eq_nil_iff.mpr hc)
    rcases this with ⟨ch, hch, hd⟩
    exact ⟨ch, hch, of_decide_eq_true hd⟩
  · rintro ⟨ch, hch, hd⟩
    intro hnil
    have := List.filter_eq_nil_iff.mp hnil ch hch
    simp [hd] at this

/-- C7: `determine_synthesis_levels` schedules a group's synthesis exactly
when the group has at least 2 active channels and a configured (non-null)
synthesis agent; "pricing" (whose agent is None) is never scheduled; the
cross-group flag is set exactly when at least 2 distinct groups have an
active channel; and the outcome is order-independent: permuted channel lists
give the same set of scheduled groups and the same flag. -/
theorem determine_synthesis_levels_spec (active : List String) :
    (∀ g : String,
      (g ∈ (determine_synthesis_levels active).1 ↔
        2 ≤ (groupChannels active g).length ∧
        ((GROUP_SYNTHESIS_MAP.lookup g).join.isSome = true))) ∧
    "pricing" ∉ (determine_synthesis_levels active).1 ∧
    ((determine_synthesis_levels active).2 = true ↔
      2 ≤ (active.filterMap (fun ch => CHANNEL_GROUPS.lookup ch)).toFinset.card) ∧
    (∀ active' : List String, active.Perm active' →
      (determine_synthesis_levels active).1.toFinset =
        (determine_synthesis_levels active').1.toFinset ∧
      (determine_synthesis_levels active).2 = (determine_synthesis_levels active').2) := by
  have hchar : ∀ (l : List String) (g : String),
      g ∈ (determine_synthesis_levels l).1 ↔
        2 ≤ (groupChannels l g).length ∧
        ((GROUP_SYNTHESIS_MAP.lookup g).join.isSome = true) := by
    intro l g
    simp only [determine_synthesis_levels, List.mem_map, List.mem_filter]
    constructor
    · rintro ⟨⟨g', chs⟩, ⟨hmem, hcond⟩, rfl⟩
      rcases (channels_per_group_mem l g' chs).mp hmem with ⟨-, rfl⟩
      simp only [Bool.and_eq_true, decide_eq_true_eq] at hcond
      exact ⟨hcond.1, hcond.2⟩
    · rintro ⟨hlen, hagent⟩
      have hne : groupChannels l g ≠ [] := by
        intro h
        rw [h] at hlen
        simp at hlen
      refine ⟨(g, groupChannels l g), ⟨(channels_per_group_mem l g _).mpr ⟨hne, rfl⟩, ?_⟩, rfl⟩
      simp only [Bool.and_eq_true, decide_eq_true_eq]
      exact ⟨hlen, hagent⟩
  have hflag : ∀ l : List String,
      (determine_synthesis_levels l).2 = true ↔
        2 ≤ (l.filterMap (fun ch => CHANNEL_GROUPS.lookup ch)).toFinset.card := by
    intro l
    simp only [determine_synthesis_levels, decide_eq_true_eq]
    rw [channels_per_group_length]
  refine ⟨hchar active, ?_, hflag active, ?_⟩
  · intro hmem
    have := ((hchar active "pricing").mp hmem).2
    simp [GROUP_SYNTHESIS_MAP, List.lookup] at this
  · intro active' hperm
    constructor
    · apply Finset.ext
      intro g
      simp only [List.mem_toFinset]
      rw [hchar active g, hchar active' g]
      have : (groupChannels active g).length = (groupChannels active' g).length :=
        (hperm.filter _).length_eq
      rw [this]
    · have h1 := hflag active
      have h2 := hflag active'
      have hcard : (active.filterMap (fun ch => CHANNEL_GROUPS.lookup ch)).toFinset.card =
          (active'.filterMap (fun ch => CHANNEL_GROUPS.lookup ch)).toFinset.card := by
        congr 1
        apply Finset.ext
        intro g
        simp only [List.mem_toFinset]
        exact (hperm.filterMap _).mem_iff
      rw [Bool.eq_iff_iff, h1, h2, hcard]

/-- Witness for `determine_synthesis_levels_spec`: the concrete permuted
inputs ["sem", "display"] and ["display", "sem"] give identical decisions
(paid group synthesis scheduled, no cross-group synthesis). -/
theorem determine_synthesis_levels_spec_witness :
    (determine_synthesis_levels ["sem", "display"]).1.toFinset =
      (determine_synthesis_levels ["display", "sem"]).1.toFinset ∧
    (determine_synthesis_levels ["sem", "display"]).2 =
      (determine_synthesis_levels ["display", "sem"]).2 ∧
    "paid" ∈ (determine_synthesis_levels ["sem", "display"]).1 :=
  ⟨((determine_synthesis_levels_spec ["sem", "display"]).2.2.2 ["display", "sem"]
      (by decide)).1,
   ((determine_synthesis_levels_spec ["sem", "display"]).2.2.2 ["display", "sem"]
      (by decide)).2,
   ((determine_synthesis_levels_spec ["sem", "display"]).1 "paid").mpr (by decide)⟩

end RunAnalysis

namespace Preprocess

/-! ### `strip_junk_rows` (scripts/preprocess.py lines 239-271)

A table is a list of rows; a cell is `Option String` (`none` is NaN, `some s`
is the cell's `str()` rendering, which is all the function inspects). -/

/-- A junk header row: at most one non-null value (lines 251-254). -/
def junkRow (r : List (Option String)) : Bool := (r.filter (·.isSome)).length ≤ 1

/-- The summary-label set of line 267 (an empty / NaN first cell counts as
the empty-string label). -/
def summaryLabels : List String := ["total", "totals", "grand total", "sum", "summary", ""]

/-- `str(row.iloc[0]).lower().strip() if pd.notna(row.iloc[0]) else ""`
(line 266). -/
def firstCellLabel (r : List (Option String)) : String :=
  match r.head? with
  | some (some s) => String.mk (RunAnalysis.stripWs (s.toList.map Char.toLower))
  | _ => ""

/-- Whether a row's first cell matches the summary-label set (line 267). -/
def labelJunk (r : List (Option String)) : Bool := summaryLabels.contains (firstCellLabel r)

/-- The trailing-row scan of lines 262-269: the smallest `i ∈ 1..min 3 len`
such that the `i`-th row from the end has a summary-label first cell. -/
def findTrailingDrop (df : List (List (Option String))) : Option Nat :=
  ((List.range (min 3 df.length)).map (· + 1)).find?
    (fun i => labelJunk (df.getD (df.length - i) []))

/-- `strip_junk_rows` (lines 239-271): return an empty table unchanged; drop
all-null rows; drop the leading run of junk rows among the first 5 (stopping
at the first non-junk row); then, when more than one row remains, drop the
last `i` rows for the smallest `i ∈ 1..min 3 len` whose `i`-th-from-last row
has a summary-label first cell. -/
def strip_junk_rows (df : List (List (Option String))) : List (List (Option String)) :=
  if df.isEmpty then df
  else
    let df1 := df.filter (fun r => r.any (·.isSome))
    let df2 := df1.drop ((df1.take 5).takeWhile junkRow).length
    if 1 < df2.length then
      match findTrailingDrop df2 with
      | some i => df2.take (df2.length - i)
      | none => df2
    else df2

/-- A junk row (one non-null cell) and a data row used in the
counterexample. -/
def junkR : List (Option String) := [some "x", none, none]

/-- A non-junk data row. -/
def goodR : List (Option String) := [some "a", some "b", some "c"]

/-- Six junk banner rows followed by one data row: one pass only strips the
first five junk rows (the scan is capped at 5), so a second pass strips the
sixth. -/
def junkCex : List (List (Option String)) := List.replicate 6 junkR ++ [goodR]

/-- C9 (counterexample): `strip_junk_rows` is not idempotent — on a table
with six leading junk rows a single pass leaves a junk row (the leading scan
is capped at the first 5 rows), so a second pass strips more. -/
theorem strip_junk_rows_not_idempotent :
    strip_junk_rows (strip_junk_rows junkCex) ≠ strip_junk_rows junkCex := by
  decide

/-- Every row surviving `strip_junk_rows` has at least one non-null value. -/
theorem strip_junk_rows_no_allnull (df : List (List (Option String))) :
    ∀ r ∈ strip_junk_rows df, r.any (·.isSome) = true := by
  intro r hr
  rw [strip_junk_rows] at hr
  by_cases hemp : df.isEmpty
  · rw [if_pos hemp] at hr
    rcases df with _ | ⟨a, t⟩
    · cases hr
    · cases hemp
  · rw [if_neg hemp] at hr
    have hmem : r ∈ df.filter (fun r => r.any (·.isSome)) := by
      by_cases hlen : 1 < ((df.filter (fun r => r.any (·.isSome))).drop
          (((df.filter (fun r => r.any (·.isSome))).take 5).takeWhile junkRow).length).length
      · rw [if_pos hlen] at hr
        rcases hfind : findTrailingDrop _ with _ | i <;> rw [hfind] at hr
        · exact List.drop_subset _ _ hr
        · exact List.drop_subset _ _ (List.take_subset _ _ hr)
      · rw [if_neg hlen] at hr
        exact List.drop_subset _ _ hr
    exact (List.mem_filter.mp hmem).2

/-- C9 (amended): one pass of `strip_junk_rows` is a fixed point provided its
output starts with a non-junk row (equivalently, the input had at most 5
leading junk rows) and none of the last `min 3 len` output rows has a
summary-label first cell (the trailing scan of a second pass finds
nothing). -/
theorem strip_junk_rows_idempotent_amended (df : List (List (Option String)))
    (h1 : ∀ r ∈ (strip_junk_rows df).take 1, junkRow r = false)
    (h2 : ∀ i < min 3 (strip_junk_rows df).length,
      labelJunk ((strip_junk_rows df).getD ((strip_junk_rows df).length - (i + 1)) []) = false) :
    strip_junk_rows (strip_junk_rows df) = strip_junk_rows df := by
  rcases hO : strip_junk_rows df with _ | ⟨r0, rest⟩
  · rfl
  · have hnn := strip_junk_rows_no_allnull df
    rw [hO] at hnn h1 h2
    have hfilter : (r0 :: rest).filter (fun r => r.any (·.isSome)) = r0 :: rest :=
      List.filter_eq_self.mpr hnn
    have hr0 : junkRow r0 = false := h1 r0 (by simp)
    have htake : ((r0 :: rest).take 5).takeWhile junkRow = [] := by
      have h5 : (r0 :: rest).take 5 = r0 :: rest.take 4 := rfl
      rw [h5, List.takeWhile_cons_of_neg (by simp [hr0])]
    rw [strip_junk_rows, if_neg (by simp)]
    simp only [hfilter, htake, List.length_nil, List.drop_zero]
    by_cases hlen : 1 < (r0 :: rest).length
    · rw [if_pos hlen]
      have hfind : findTrailingDrop (r0 :: rest) = none := by
        rw [findTrailingDrop, List.find?_eq_none]
        intro i hi
        rcases List.mem_map.mp hi with ⟨j, hj, rfl⟩
        rw [List.mem_range] at hj
        simpa using h2 j hj
      rw [hfind]
    · rw [if_neg hlen]

/-- Witness for `strip_junk_rows_idempotent_amended` at a concrete two-row
table with no junk. -/
theorem strip_junk_rows_idempotent_amended_witness :
    strip_junk_rows (strip_junk_rows [[some "a", some "b"], [some "c", some "d"]]) =
      strip_junk_rows [[some "a", some "b"], [some "c", some "d"]] :=
  strip_junk_rows_idempotent_amended _ (by decide) (by decide)

/-! ### `split_by_geo` (scripts/preprocess.py lines 480-511)

Regex matching on campaign names: `\bNA\b|_NA_|_na_` and
`\bINTL\b|_INTL_|_intl_` with `case=False`, i.e. a word-bounded token or a
case-insensitive `_tok_` substring.  Word characters follow the regex `\w`
class (letters, digits, underscore; the data is ASCII). -/

/-- Regex `\w` on ASCII data. -/
def isWordChar (c : Char) : Bool := c.isAlphanum || c = '_'

/-- Scan for an occurrence of `tok` with a word boundary on both sides,
carrying the previous character. -/
def tokenAt (tok : List Char) (prev : Option Char) : List Char → Bool
  | [] => false
  | c :: t =>
    (tok.isPrefixOf (c :: t) &&
      (match prev with
       | none => true
       | some p => !isWordChar p) &&
      (match (c :: t).drop tok.length with
       | [] => true
       | d :: _ => !isWordChar d)) ||
    tokenAt tok (some c) t

/-- `\btok\b` on a (lowercased) character list. -/
def hasWordToken (tok : List Char) (s : List Char) : Bool := tokenAt tok none s

/-- The NA-indicating campaign mask (line 483): regex
`\bNA\b|_NA_|_na_`, case-insensitive, `na=False` for a NaN campaign. -/
def na_mask (campaign : Option String) : Bool :=
  match campaign with
  | none => false
  | some s =>
    let cs := s.toList.map Char.toLower
    hasWordToken ['n', 'a'] cs || RunAnalysis.substrIn ['_', 'n', 'a', '_'] cs

/-- The INTL-indicating campaign mask (line 484): regex
`\bINTL\b|_INTL_|_intl_`, case-insensitive, `na=False` for NaN. -/
def intl_mask (campaign : Option String) : Bool :=
  match campaign with
  | none => false
  | some s =>
    let cs := s.toList.map Char.toLower
    hasWordToken ['i', 'n', 't', 'l'] cs || RunAnalysis.substrIn ['_', 'i', 'n', 't', 'l', '_'] cs

/-- The geo partition built by `split_by_geo` (the Python dict; the
`unknown_geo` key exists only when non-empty, modelled as a possibly empty
list). -/
structure GeoSplit (α : Type) where
  na : List α
  intl : List α
  unknown_geo : List α
  deriving DecidableEq, Repr

/-- `split_by_geo` for the campaign-based sources (lines 482-496): the
google-ads / display branch with a `Campaign` column, which is the branch
the geo-partition claim is about (the `gsc` Country branch at lines 498-508
is a disjoint per-country partition and the remaining sources return `{}`).
Rows are any type `α` with a campaign accessor; a split happens only when
both an NA-matching and an INTL-matching row exist, else `none` (`{}`, no
split). -/
def split_by_geo {α : Type} (campaign : α → Option String) (rows : List α) :
    Option (GeoSplit α) :=
  if rows.any (fun r => na_mask (campaign r)) && rows.any (fun r => intl_mask (campaign r)) then
    some { na := rows.filter (fun r => na_mask (campaign r)),
           intl := rows.filter (fun r => intl_mask (campaign r)),
           unknown_geo := rows.filter
             (fun r => !na_mask (campaign r) && !intl_mask (campaign r)) }
  else none

/-- The geo-split handling of `process_file` (lines 721-736): iterate the
split dict in insertion order; the `unknown_geo` bucket produces a warning
and is skipped (`continue`), every other bucket is written to an output file.
Returns (warnings, written geo labels). -/
def process_geo_splits {α : Type} (s : GeoSplit α) : List String × List String :=
  (if s.unknown_geo.isEmpty then []
   else ["WARN: " ++ toString s.unknown_geo.length ++ " rows could not be assigned to NA or INTL"],
   ["na", "intl"])

/-- Rows whose campaign mentions NA, INTL, and both, respectively. -/
def geoRows : List (Option String) := [some "x NA y", some "x INTL y", some "NA INTL z"]

/-- C3 (counterexample): a row whose campaign name matches both the NA and
the INTL pattern ("NA INTL z") lands in both the `na` and the `intl`
partition, so a row does not always belong to exactly one partition. -/
theorem split_by_geo_row_in_two_partitions :
    split_by_geo (fun c : Option String => c) geoRows =
      some ⟨[some "x NA y", some "NA INTL z"],
            [some "x INTL y", some "NA INTL z"], []⟩ ∧
    some "NA INTL z" ∈ ([some "x NA y", some "NA INTL z"] : List (Option String)) ∧
    some "NA INTL z" ∈ ([some "x INTL y", some "NA INTL z"] : List (Option String)) := by
  decide

/-- C3 (amended): when `split_by_geo` splits, membership in the three buckets
is exactly membership in the input filtered by the NA / INTL / neither masks;
hence every row lands in at least one bucket, and every row not matching both
masks lands in exactly one; rows matching neither go to `unknown_geo`, which
`process_file` reports as a warning count and never writes as an output
file. -/
theorem split_by_geo_partition {α : Type} (campaign : α → Option String) (rows : List α)
    (s : GeoSplit α) (h : split_by_geo campaign rows = some s) :
    (∀ r : α,
      (r ∈ s.na ↔ r ∈ rows ∧ na_mask (campaign r) = true) ∧
      (r ∈ s.intl ↔ r ∈ rows ∧ intl_mask (campaign r) = true) ∧
      (r ∈ s.unknown_geo ↔
        r ∈ rows ∧ na_mask (campaign r) = false ∧ intl_mask (campaign r) = false)) ∧
    (∀ r ∈ rows, r ∈ s.na ∨ r ∈ s.intl ∨ r ∈ s.unknown_geo) ∧
    (∀ r ∈ rows, ¬(na_mask (campaign r) = true ∧ intl_mask (campaign r) = true) →
      ((r ∈ s.na ∧ r ∉ s.intl ∧ r ∉ s.unknown_geo) ∨
       (r ∉ s.na ∧ r ∈ s.intl ∧ r ∉ s.unknown_geo) ∨
       (r ∉ s.na ∧ r ∉ s.intl ∧ r ∈ s.unknown_geo))) ∧
    ("unknown_geo" ∉ (process_geo_splits s).2 ∧
      (s.unknown_geo ≠ [] → (process_geo_splits s).1 ≠ [])) := by
  rw [split_by_geo] at h
  by_cases hc : rows.any (fun r => na_mask (campaign r)) &&
      rows.any (fun r => intl_mask (campaign r))
  swap
  · rw [if_neg hc] at h
    cases h
  rw [if_pos hc] at h
  injection h with h
  subst h
  have hchar : ∀ r : α,
      (r ∈ rows.filter (fun r => na_mask (campaign r)) ↔
        r ∈ rows ∧ na_mask (campaign r) = true) ∧
      (r ∈ rows.filter (fun r => intl_mask (campaign r)) ↔
        r ∈ rows ∧ intl_mask (campaign r) = true) ∧
      (r ∈ rows.filter (fun r => !na_mask (campaign r) && !intl_mask (campaign r)) ↔
        r ∈ rows ∧ na_mask (campaign r) = false ∧ intl_mask (campaign r) = false) := by
    intro r
    refine ⟨List.mem_filter, List.mem_filter.trans ?_, List.mem_filter.trans ?_⟩
    · exact Iff.rfl
    · constructor
      · rintro ⟨hm, hb⟩
        simp only [Bool.and_eq_true, Bool.not_eq_true'] at hb
        exact ⟨hm, hb.1, hb.2⟩
      · rintro ⟨hm, hb1, hb2⟩
        refine ⟨hm, ?_⟩
        simp [hb1, hb2]
  refine ⟨hchar, ?_, ?_, ?_⟩
  · intro r hr
    rcases hna : na_mask (campaign r) with _ | _
    · rcases hintl : intl_mask (campaign r) with _ | _
      · exact Or.inr (Or.inr (((hchar r).2.2).mpr ⟨hr, hna, hintl⟩))
      · exact Or.inr (Or.inl (((hchar r).2.1).mpr ⟨hr, hintl⟩))
    · exact Or.inl (((hchar r).1).mpr ⟨hr, hna⟩)
  · intro r hr hnot
    rcases hna : na_mask (campaign r) with _ | _ <;>
      rcases hintl : intl_mask (campaign r) with _ | _
    · exact Or.inr (Or.inr ⟨
        fun hm => by simpa [hna] using ((hchar r).1).mp hm,
        fun hm => by simpa [hintl] using ((hchar r).2.1).mp hm,
        ((hchar r).2.2).mpr ⟨hr, hna, hintl⟩⟩)
    · exact Or.inr (Or.inl ⟨
        fun hm => by simpa [hna] using ((hchar r).1).mp hm,
        ((hchar r).2.1).mpr ⟨hr, hintl⟩,
        fun hm => by simpa [hintl] using ((hchar r).2.2).mp hm⟩)
    · exact Or.inl ⟨
        ((hchar r).1).mpr ⟨hr, hna⟩,
        fun hm => by simpa [hintl] using ((hchar r).2.1).mp hm,
        fun hm => by simpa [hna] using ((hchar r).2.2).mp hm⟩
    · exact absurd ⟨hna, hintl⟩ hnot
  · constructor
    · intro hm
      simp [process_geo_splits] at hm
    · intro hne
      have : ¬ (rows.filter
          (fun r => !na_mask (campaign r) && !intl_mask (campaign r))).isEmpty := by
        simpa [List.isEmpty_iff] using hne
      simp [process_geo_splits, this]

/-- Witness for `split_by_geo_partition` at a concrete three-row table: every
row lands in a bucket and `unknown_geo` is warned about, not written. -/
theorem split_by_geo_partition_witness :
    (some "zzz" ∈ (GeoSplit.mk [some "q NA"] [some "q INTL"] [some "zzz"]).na ∨
     some "zzz" ∈ (GeoSplit.mk [some "q NA"] [some "q INTL"] [some "zzz"]).intl ∨
     some "zzz" ∈ (GeoSplit.mk [some "q NA"] [some "q INTL"] [some "zzz"]).unknown_geo) ∧
    "unknown_geo" ∉
      (process_geo_splits (GeoSplit.mk [some "q NA"] [some "q INTL"] [some "zzz"])).2 :=
  ⟨(split_by_geo_partition (fun c : Option String => c)
      [some "q NA", some "q INTL", some "zzz"] _ (by decide)).2.1 (some "zzz") (by decide),
   (split_by_geo_partition (fun c : Option String => c)
      [some "q NA", some "q INTL", some "zzz"] _ (by decide)).2.2.2.1⟩


/-! ### Source identification (scripts/preprocess.py lines 41-169, 274-302,
419-434 and `process_file` lines 688-704) -/

/-- `COLUMN_ALIASES` (preprocess.py lines 42-148): lowercase header spelling
→ canonical name, `none` meaning "drop this column".  The Python dict literal
repeats the key "orders" ("Conversions" at line 60, then "Transactions" at
line 115); a Python dict keeps the later value, so the effective entry is
"orders" → "Transactions". -/
def COLUMN_ALIASES : List (String × Option String) := [
  ("impr.", some "Impressions"),
  ("impr", some "Impressions"),
  ("avg. cpc", none),
  ("conv. value", some "Conversion Value"),
  ("conv. value / cost", none),
  ("conv.", some "Conversions"),
  ("all conv.", none),
  ("impr. share", some "Impression Share"),
  ("search impr. share", some "Impression Share"),
  ("average position", some "Position"),
  ("avg position", some "Position"),
  ("avg. position", some "Position"),
  ("url", some "Page"),
  ("sales", some "Conversions"),
  ("orders", some "Transactions"),
  ("commissions", some "Commission"),
  ("pub", some "Publisher"),
  ("publisher name", some "Publisher"),
  ("insertion order", some "Campaign"),
  ("line item", some "Campaign"),
  ("io", some "Campaign"),
  ("spend", some "Cost"),
  ("media cost", some "Cost"),
  ("viewable impressions", some "Viewable Impressions"),
  ("measurable impressions", some "Viewable Impressions"),
  ("subject line", some "Campaign"),
  ("subject", some "Campaign"),
  ("email name", some "Campaign"),
  ("sends", some "Sent"),
  ("total sent", some "Sent"),
  ("total delivered", some "Delivered"),
  ("unique opens", some "Opens"),
  ("total opens", some "Opens"),
  ("unique clicks", some "Clicks"),
  ("total clicks", some "Clicks"),
  ("unsubscribes", some "Unsubscribes"),
  ("opt outs", some "Unsubscribes"),
  ("opt-outs", some "Unsubscribes"),
  ("hard bounces", some "Bounces"),
  ("soft bounces", some "Bounces"),
  ("push name", some "Campaign"),
  ("notification name", some "Campaign"),
  ("message name", some "Campaign"),
  ("ad set", some "Campaign"),
  ("ad set name", some "Campaign"),
  ("adset", some "Campaign"),
  ("engagement", some "Engagement"),
  ("engagements", some "Engagement"),
  ("video views", some "Video Views"),
  ("video completions", some "Video Completions"),
  ("3s views", some "Video Views"),
  ("thruplays", some "Video Completions"),
  ("property", some "Campaign"),
  ("hotel", some "Campaign"),
  ("listing", some "Campaign"),
  ("bookings", some "Bookings"),
  ("reservations", some "Bookings"),
  ("avg bid", some "Avg Bid"),
  ("average bid", some "Avg Bid"),
  ("partner", some "Partner"),
  ("partner name", some "Partner"),
  ("network", some "Partner"),
  ("transactions", some "Transactions"),
  ("net revenue", some "Net Revenue"),
  ("incentive cost", some "Incentive Cost"),
  ("incentive", some "Incentive Cost"),
  ("promotion", some "Promo Name"),
  ("promo", some "Promo Name"),
  ("promotion name", some "Promo Name"),
  ("coupon code", some "Promo Name"),
  ("voucher", some "Promo Name"),
  ("discount", some "Discount Amount"),
  ("discount cost", some "Discount Amount"),
  ("discount_amount", some "Discount Amount"),
  ("promo type", some "Promo Type"),
  ("promotion type", some "Promo Type"),
  ("discount type", some "Discount Type"),
  ("discount value", some "Discount Value"),
  ("redemptions", some "Redemptions"),
  ("eligible users", some "Eligible Users"),
  ("dimension 1", some "Channel"),
  ("dimension 2", some "Date"),
  ("m1+vfm", some "M1VFM"),
  ("m1 + vfm", some "M1VFM"),
  ("gb", some "Gross Billings"),
  ("gr", some "Gross Revenue"),
  ("nob", some "New Order Base"),
  ("nor", some "New Order Revenue"),
  ("ils", some "ILS"),
  ("vfm", some "VFM"),
  ("order discount", some "Order Discount"),
  ("order item count", some "Order Item Count"),
  ("promo spend", some "Promo Spend")]

/-- `SOURCE_SIGNATURES` (preprocess.py lines 153-169): ordered
(source, required column set) signatures, most specific ("halo") first. -/
def SOURCE_SIGNATURES : List (String × List String) := [
  ("halo", ["Dimension 1", "Dimension 2", "Activations", "Impressions", "Spend", "M1+VFM"]),
  ("gsc", ["Page", "Impressions", "Clicks", "CTR", "Position"]),
  ("google-ads", ["Campaign", "Impressions", "Clicks", "Cost", "Conversions"]),
  ("email", ["Campaign", "Sent", "Delivered", "Opens", "Clicks"]),
  ("push", ["Campaign", "Sent", "Delivered", "Opens"]),
  ("sms", ["Campaign", "Sent", "Delivered"]),
  ("social-paid", ["Campaign", "Impressions", "Clicks", "Cost", "Reach"]),
  ("metasearch", ["Campaign", "Impressions", "Clicks", "Cost", "Bookings"]),
  ("affiliate", ["Publisher", "Clicks", "Commission"]),
  ("distribution", ["Partner", "Transactions", "Revenue", "Commission"]),
  ("referral-program", ["Partner", "Transactions", "Incentive Cost"]),
  ("social-organic", ["Campaign", "Reach", "Engagement"]),
  ("promo", ["Promo Name", "Orders", "Revenue", "Discount Amount"]),
  ("display", ["Campaign", "Impressions", "Cost"])]

/-- `col.strip()` of a column name. -/
def stripName (c : String) : String := String.mk (RunAnalysis.stripWs c.toList)

/-- `col_lower.rstrip(".")`: drop all trailing dots. -/
def rstripDots (cs : List Char) : List Char := (cs.reverse.dropWhile (· = '.')).reverse

/-- The column renaming / dropping part of `standardize_columns`
(preprocess.py lines 274-302): strip whitespace from every name, then drop a
column whose lowercased name (or that name with trailing dots removed) maps
to None in `COLUMN_ALIASES`, rename it when it maps to a canonical name, and
keep it unchanged otherwise.  (The numeric-coercion part of
`standardize_columns`, lines 304-330, is modelled separately as
`clean_numeric`.) -/
def standardize_columns_names (cols : List String) : List String :=
  (cols.map stripName).filterMap (fun c =>
    let cl := RunAnalysis.lowerStr c
    match COLUMN_ALIASES.lookup cl with
    | some none => none
    | some (some a) => some a
    | none =>
      match COLUMN_ALIASES.lookup (String.mk (rstripDots cl.toList)) with
      | some none => none
      | some (some a) => some a
      | none => some c)

/-- Exact (case-sensitive) subset test of a signature against the column
set (first loop of `identify_source`, lines 423-425). -/
def exactSubset (required cols : List String) : Bool :=
  required.all (fun r => cols.contains r)

/-- Case-insensitive subset test (second loop, lines 428-432). -/
def ciSubset (required cols : List String) : Bool :=
  required.all (fun r => cols.any (fun c => RunAnalysis.lowerStr c = RunAnalysis.lowerStr r))

/-- `identify_source` (preprocess.py lines 419-434): first signature that is
an exact subset of the columns; failing that, first signature that is a
case-insensitive subset; else `none`. -/
def identify_source (cols : List String) : Option String :=
  match SOURCE_SIGNATURES.find? (fun sig => exactSubset sig.2 cols) with
  | some sig => some sig.1
  | none => (SOURCE_SIGNATURES.find? (fun sig => ciSubset sig.2 cols)).map (·.1)

/-- The identification stage of `process_file` (lines 688-704): identify from
the original (junk-stripped) columns first, then standardize the columns and
retry, and fail with the standardized column list in the error message when
both attempts find nothing. -/
def identify_stage (cols : List String) : Except (List String) String :=
  match identify_source cols with
  | some s => Except.ok s
  | none =>
    match identify_source (standardize_columns_names cols) with
    | some s => Except.ok s
    | none => Except.error (standardize_columns_names cols)

/-- The identification order stated by the claim (post-alias first, pre-alias
only as a fallback, each signature tested as a case-insensitive subset).
This definition follows the words of the claim/spec, for comparison with
`identify_stage`, which follows the code. -/
def identify_claimed (cols : List String) : Option String :=
  match (SOURCE_SIGNATURES.find?
      (fun sig => ciSubset sig.2 (standardize_columns_names cols))).map (·.1) with
  | some s => some s
  | none => (SOURCE_SIGNATURES.find? (fun sig => ciSubset sig.2 cols)).map (·.1)

deriving instance DecidableEq for Except

/-- C5 (counterexample): on raw columns [Campaign, Impressions, Clicks, Cost,
Conv.] the code identifies "display" (pre-alias columns match the display
signature before aliasing is ever consulted), while the claimed post-alias-
first order would identify "google-ads" ("conv." aliases to Conversions). -/
theorem identify_source_order_cex :
    identify_stage ["Campaign", "Impressions", "Clicks", "Cost", "Conv."] =
      Except.ok "display" ∧
    identify_claimed ["Campaign", "Impressions", "Clicks", "Cost", "Conv."] =
      some "google-ads" ∧
    ("display" : String) ≠ "google-ads" := by
  decide

/-- C5 (amended): identification tries the pre-alias column set first and the
post-alias set only as a fallback; each `identify_source` call scans the
signature list (halo first) for the earliest exact-subset match and only then
for the earliest case-insensitive subset match; and when no signature subsets
either column set in either pass the stage fails carrying the standardized
column list — never a silent default. -/
theorem identify_source_spec (cols : List String) :
    (SOURCE_SIGNATURES.head?.map (·.1) = some "halo") ∧
    (∀ i : Fin SOURCE_SIGNATURES.length,
      exactSubset (SOURCE_SIGNATURES.get i).2 cols = true →
      (∀ j : Fin SOURCE_SIGNATURES.length, (j : ℕ) < (i : ℕ) →
        exactSubset (SOURCE_SIGNATURES.get j).2 cols = false) →
      identify_source cols = some (SOURCE_SIGNATURES.get i).1) ∧
    ((∀ sig ∈ SOURCE_SIGNATURES, exactSubset sig.2 cols = false) →
      ∀ i : Fin SOURCE_SIGNATURES.length,
        ciSubset (SOURCE_SIGNATURES.get i).2 cols = true →
        (∀ j : Fin SOURCE_SIGNATURES.length, (j : ℕ) < (i : ℕ) →
          ciSubset (SOURCE_SIGNATURES.get j).2 cols = false) →
        identify_source cols = some (SOURCE_SIGNATURES.get i).1) ∧
    ((∀ sig ∈ SOURCE_SIGNATURES,
        exactSubset sig.2 cols = false ∧ ciSubset sig.2 cols = false) →
      identify_source cols = none) ∧
    (∀ s, identify_source cols = some s → identify_stage cols = Except.ok s) ∧
    (identify_source cols = none →
      ∀ s, identify_source (standardize_columns_names cols) = some s →
        identify_stage cols = Except.ok s) ∧
    (identify_stage cols = Except.error (standardize_columns_names cols) ↔
      identify_source cols = none ∧
      identify_source (standardize_columns_names cols) = none) := by
  refine ⟨rfl, ?_, ?_, ?_, ?_, ?_, ?_⟩
  · intro i hi hj
    rw [identify_source, RunAnalysis.find?_eq_get _ _ i hi (fun j hji => hj j hji)]
  · intro hex i hi hj
    have hnone : SOURCE_SIGNATURES.find? (fun sig => exactSubset sig.2 cols) = none :=
      List.find?_eq_none.mpr (fun sig hs => by simp [hex sig hs])
    rw [identify_source, hnone, RunAnalysis.find?_eq_get _ _ i hi (fun j hji => hj j hji)]
    rfl
  · intro hno
    have h1 : SOURCE_SIGNATURES.find? (fun sig => exactSubset sig.2 cols) = none :=
      List.find?_eq_none.mpr (fun sig hs => by simp [(hno sig hs).1])
    have h2 : SOURCE_SIGNATURES.find? (fun sig => ciSubset sig.2 cols) = none :=
      List.find?_eq_none.mpr (fun sig hs => by simp [(hno sig hs).2])
    rw [identify_source, h1, h2]
    rfl
  · intro s hs
    rw [identify_stage, hs]
  · intro hn s hs
    rw [identify_stage, hn, hs]
  · constructor
    · intro he
      rcases h1 : identify_source cols with _ | s1
      · rcases h2 : identify_source (standardize_columns_names cols) with _ | s2
        · exact ⟨rfl, rfl⟩
        · rw [identify_stage, h1, h2] at he
          cases he
      · rw [identify_stage, h1] at he
        cases he
    · rintro ⟨h1, h2⟩
      rw [identify_stage, h1, h2]

/-- Witness for `identify_source_spec`: the GSC signature columns identify as
"gsc" (index 1 is the earliest match), and the stage accepts it. -/
theorem identify_source_spec_witness :
    identify_source ["Page", "Impressions", "Clicks", "CTR", "Position"] = some "gsc" ∧
    identify_stage ["Page", "Impressions", "Clicks", "CTR", "Position"] = Except.ok "gsc" :=
  ⟨(identify_source_spec ["Page", "Impressions", "Clicks", "CTR", "Position"]).2.1
      ⟨1, by decide⟩ (by decide) (by decide),
   (identify_source_spec ["Page", "Impressions", "Clicks", "CTR", "Position"]).2.2.2.2.1
      "gsc" ((identify_source_spec ["Page", "Impressions", "Clicks", "CTR", "Position"]).2.1
        ⟨1, by decide⟩ (by decide) (by decide))⟩

/-! ### Numeric coercion in `standardize_columns` (preprocess.py lines 304-330) -/

/-- The character class of `^[\s$%,.\d+-]+$` (line 312). -/
def numericCharOk (c : Char) : Bool :=
  c.isWhitespace || c = '$' || c = '%' || c = ',' || c = '.' || c.isDigit || c = '+' || c = '-'

/-- `numeric_pattern.match(str(x))`: one or more characters, all from the
currency/percent/numeric class. -/
def numericPatternMatch (s : String) : Bool :=
  !s.toList.isEmpty && s.toList.all numericCharOk

/-- Strip `[$,\s]` and then `%` from a value (lines 317-321). -/
def cleanValue (s : String) : String :=
  String.mk (((s.toList.filter
    (fun c => !(c = '$' || c = ',' || c.isWhitespace))).filter (fun c => !(c = '%'))))

/-- The value of a digit run. -/
def digitsToNat (cs : List Char) : Nat := cs.foldl (fun a c => 10 * a + (c.toNat - 48)) 0

/-- `pd.to_numeric(·, errors="coerce")` on a cleaned cell, for decimal
notation: optional sign, integer digits, optional fractional digits (at
least one digit overall); anything else coerces to NaN (`none`).
Exponent / inf forms are not modelled — the cleaned currency/percent data
this runs on never uses them. -/
def parseFloat (s : String) : Option ℚ :=
  let body := s.toList
  let sgn : ℚ := match body with
    | '-' :: _ => -1
    | _ => 1
  let digits := match body with
    | '-' :: t => t
    | '+' :: t => t
    | _ => body
  let intPart := digits.takeWhile Char.isDigit
  let rest := digits.dropWhile Char.isDigit
  match rest with
  | [] =>
    if intPart.isEmpty then none
    else some (sgn * (digitsToNat intPart : ℚ))
  | '.' :: frac =>
    if frac.all Char.isDigit && !(intPart.isEmpty && frac.isEmpty) then
      some (sgn * ((digitsToNat intPart : ℚ) + (digitsToNat frac : ℚ) / (10 : ℚ) ^ frac.length))
    else none
  | _ => none

/-- The fraction of the 20-row non-null sample matching the numeric pattern
(`sample.apply(...).mean()`, line 313). -/
def matchFraction (col : List (Option String)) : ℚ :=
  ((((col.filterMap id).take 20).countP numericPatternMatch : ℚ) /
    (((col.filterMap id).take 20).length : ℚ))

/-- `df[col].astype(str).str.contains("%").any()` (line 320): some non-null
original value contains a percent sign (the `str()` image of NaN, "nan", has
none). -/
def hasPercent (col : List (Option String)) : Bool :=
  col.any (fun v =>
    match v with
    | some s => s.toList.contains '%'
    | none => false)

/-- The cleaned-and-parsed column, cell by cell: strip `$`, commas,
whitespace and `%`, then coerce to a number (NaN stays NaN). -/
def claimedParse (col : List (Option String)) : List (Option ℚ) :=
  col.map (fun v => v.bind (fun s => parseFloat (cleanValue s)))

/-- The rescale condition of lines 325-328: the original column contained a
percent sign and the mean of the parsed non-null values exceeds 1 (pandas'
mean of an empty series is NaN, which fails the comparison). -/
def percentRescale (col : List (Option String)) : Prop :=
  hasPercent col = true ∧ (claimedParse col).filterMap id ≠ [] ∧
    1 < ((claimedParse col).filterMap id).sum / (((claimedParse col).filterMap id).length : ℚ)

instance (col : List (Option String)) : Decidable (percentRescale col) := by
  unfold percentRescale
  exact inferInstance

/-- The per-column numeric coercion of `standardize_columns` (lines 305-328):
`Sum.inl` is the untouched text column, `Sum.inr` the coerced numeric column.
A column is coerced only when its 20-row non-null sample is non-empty and
strictly more than 70% of it matches the numeric pattern; the coerced values
are divided by 100 when `percentRescale` holds. -/
def clean_numeric (col : List (Option String)) : List (Option String) ⊕ List (Option ℚ) :=
  let sample := (col.filterMap id).take 20
  if sample = [] then Sum.inl col
  else if (7 / 10 : ℚ) < (sample.countP numericPatternMatch : ℚ) / (sample.length : ℚ) then
    let cleaned := col.map (Option.map cleanValue)
    let parsed := cleaned.map (fun v => v.bind parseFloat)
    if percentRescale col then Sum.inr (parsed.map (Option.map (· / 100)))
    else Sum.inr parsed
  else Sum.inl col

/-- A column whose 20-row sample matches the numeric pattern in exactly 14 of
20 values — exactly the 70% boundary. -/
def boundaryCol : List (Option String) :=
  List.replicate 14 (some "5") ++ List.replicate 6 (some "abc")

/-- C8 (counterexample): at a sample match fraction of exactly 70% (14 of
20), the code leaves the column untouched (the test is strictly `> 0.7`),
while the claim ("at least 70%") demands the stripped-and-parsed numeric
column. -/
theorem clean_numeric_boundary_cex :
    matchFraction boundaryCol = 7 / 10 ∧
    ((7 : ℚ) / 10 ≥ 7 / 10) ∧
    clean_numeric boundaryCol = Sum.inl boundaryCol ∧
    (Sum.inl boundaryCol : List (Option String) ⊕ List (Option ℚ)) ≠
      Sum.inr (claimedParse boundaryCol) := by
  have hc : ((boundaryCol.filterMap id).take 20).countP numericPatternMatch = 14 := by decide
  have hl : ((boundaryCol.filterMap id).take 20).length = 20 := by decide
  have hfrac : matchFraction boundaryCol = 7 / 10 := by
    rw [matchFraction, hc, hl]
    norm_num
  refine ⟨hfrac, by norm_num, ?_, by simp⟩
  have hnlt : ¬ ((7 / 10 : ℚ) <
      (((boundaryCol.filterMap id).take 20).countP numericPatternMatch : ℚ) /
        (((boundaryCol.filterMap id).take 20).length : ℚ)) := by
    rw [hc, hl]
    norm_num
  rw [clean_numeric, if_neg (by decide), if_neg hnlt]

/-- C8 (amended): with a non-empty sample, `standardize_columns` coerces a
text column exactly when strictly more than 70% of the 20-row non-null
sample matches the currency/percent/numeric pattern — in which case the
result is the column with `$`, commas, whitespace and `%` stripped and
values parsed to numbers, divided by 100 exactly when some original value
contained `%` and the mean of the parsed values exceeds 1 — and leaves the
column untouched when the fraction is at most 70%. -/
theorem clean_numeric_spec (col : List (Option String)) :
    ((col.filterMap id).take 20 ≠ [] →
      (7 / 10 : ℚ) < matchFraction col →
      clean_numeric col =
        Sum.inr (if percentRescale col then (claimedParse col).map (Option.map (· / 100))
                 else claimedParse col)) ∧
    ((col.filterMap id).take 20 ≠ [] →
      matchFraction col ≤ 7 / 10 →
      clean_numeric col = Sum.inl col) := by
  have hparse : (col.map (Option.map cleanValue)).map (fun v => v.bind parseFloat) =
      claimedParse col := by
    rw [claimedParse, List.map_map]
    apply List.map_congr_left
    intro v _
    cases v <;> rfl
  constructor
  · intro hne hfrac
    rw [clean_numeric]
    rw [if_neg hne]
    rw [matchFraction] at hfrac
    rw [if_pos hfrac]
    simp only [hparse]
    by_cases hp : percentRescale col
    · rw [if_pos hp, if_pos hp]
    · rw [if_neg hp, if_neg hp]
  · intro hne hfrac
    rw [clean_numeric]
    rw [if_neg hne]
    rw [matchFraction] at hfrac
    rw [if_neg (by exact not_lt.mpr hfrac)]

/-- Witness for `clean_numeric_spec`: a currency column is coerced (here
without percent rescale), a textual column is left untouched. -/
theorem clean_numeric_spec_witness :
    clean_numeric [some "$1,200.50", some "3"] =
      Sum.inr (if percentRescale [some "$1,200.50", some "3"]
               then (claimedParse [some "$1,200.50", some "3"]).map (Option.map (· / 100))
               else claimedParse [some "$1,200.50", some "3"]) ∧
    clean_numeric [some "abc", some "def"] = Sum.inl [some "abc", some "def"] := by
  constructor
  · refine (clean_numeric_spec [some "$1,200.50", some "3"]).1 (by decide) ?_
    have hc : (([some "$1,200.50", some "3"].filterMap id).take 20).countP
        numericPatternMatch = 2 := by decide
    have hl : (([some "$1,200.50", some "3"].filterMap id).take 20).length = 2 := by decide
    rw [matchFraction, hc, hl]
    norm_num
  · refine (clean_numeric_spec [some "abc", some "def"]).2 (by decide) ?_
    have hc : (([some "abc", some "def"].filterMap id).take 20).countP
        numericPatternMatch = 0 := by decide
    have hl : (([some "abc", some "def"].filterMap id).take 20).length = 2 := by decide
    rw [matchFraction, hc, hl]
    norm_num

/-! ### Date-format detection and disambiguation
(`detect_date_format`, preprocess.py lines 333-350, and the ambiguity block
of `standardize_dates`, lines 384-416)

`datetime.strptime` is modelled per format from CPython's `_strptime`
regexes: `%Y` is exactly 4 digits, `%y` exactly 2 (69-mapping to 19xx/20xx),
`%m` is `1[0-2]|0[1-9]|[1-9]`, `%d` is `3[01]|[12]\d|0[1-9]|[1-9]| [1-9]`,
`%b` a case-insensitive month abbreviation; the parsed date must be a valid
calendar date.  Alternation is resolved with full backtracking, as in the
regex engine. -/

/-- The nine entries of `DATE_FORMATS` (lines 172-182). -/
inductive DateFmt
  | ISO      -- %Y-%m-%d
  | MDY4     -- %m/%d/%Y
  | DMY4     -- %d/%m/%Y
  | MDY2     -- %m/%d/%y
  | DMY2     -- %d/%m/%y
  | YMD      -- %Y/%m/%d
  | DbY4     -- %d-%b-%Y
  | DbY2     -- %d-%b-%y
  | BdY4     -- %b %d, %Y
  deriving DecidableEq, Repr

/-- One strptime directive or literal character. -/
inductive FmtTok
  | Y4
  | Y2
  | M
  | D
  | B
  | lit (c : Char)
  deriving DecidableEq, Repr

/-- The token sequence of each format string. -/
def fmtToks : DateFmt → List FmtTok
  | .ISO => [.Y4, .lit '-', .M, .lit '-', .D]
  | .MDY4 => [.M, .lit '/', .D, .lit '/', .Y4]
  | .DMY4 => [.D, .lit '/', .M, .lit '/', .Y4]
  | .MDY2 => [.M, .lit '/', .D, .lit '/', .Y2]
  | .DMY2 => [.D, .lit '/', .M, .lit '/', .Y2]
  | .YMD => [.Y4, .lit '/', .M, .lit '/', .D]
  | .DbY4 => [.D, .lit '-', .B, .lit '-', .Y4]
  | .DbY2 => [.D, .lit '-', .B, .lit '-', .Y2]
  | .BdY4 => [.B, .lit ' ', .D, .lit ',', .lit ' ', .Y4]

/-- Digit value of an ASCII digit. -/
def digitVal (c : Char) : Nat := c.toNat - 48

/-- `%m` (`1[0-2]|0[1-9]|[1-9]`): the possible (month, rest) readings in
regex alternation order. -/
def monthAlts : List Char → List (Nat × List Char)
  | c1 :: c2 :: rest =>
    (if c1 = '1' ∧ ('0' ≤ c2 ∧ c2 ≤ '2') then [(10 + digitVal c2, rest)] else []) ++
    (if c1 = '0' ∧ ('1' ≤ c2 ∧ c2 ≤ '9') then [(digitVal c2, rest)] else []) ++
    (if '1' ≤ c1 ∧ c1 ≤ '9' then [(digitVal c1, c2 :: rest)] else [])
  | [c1] => if '1' ≤ c1 ∧ c1 ≤ '9' then [(digitVal c1, [])] else []
  | [] => []

/-- `%d` (`3[01]|[12]\d|0[1-9]|[1-9]| [1-9]`). -/
def dayAlts : List Char → List (Nat × List Char)
  | c1 :: c2 :: rest =>
    (if c1 = '3' ∧ (c2 = '0' ∨ c2 = '1') then [(30 + digitVal c2, rest)] else []) ++
    (if (c1 = '1' ∨ c1 = '2') ∧ c2.isDigit then [(10 * digitVal c1 + digitVal c2, rest)] else []) ++
    (if c1 = '0' ∧ ('1' ≤ c2 ∧ c2 ≤ '9') then [(digitVal c2, rest)] else []) ++
    (if '1' ≤ c1 ∧ c1 ≤ '9' then [(digitVal c1, c2 :: rest)] else []) ++
    (if c1 = ' ' ∧ ('1' ≤ c2 ∧ c2 ≤ '9') then [(digitVal c2, rest)] else [])
  | [c1] => if '1' ≤ c1 ∧ c1 ≤ '9' then [(digitVal c1, [])] else []
  | [] => []

/-- `%Y`: exactly four digits. -/
def year4Alts : List Char → List (Nat × List Char)
  | c1 :: c2 :: c3 :: c4 :: rest =>
    if c1.isDigit ∧ c2.isDigit ∧ c3.isDigit ∧ c4.isDigit then
      [(digitsToNat [c1, c2, c3, c4], rest)]
    else []
  | _ => []

/-- CPython's two-digit-year mapping: 0-68 → 2000s, 69-99 → 1900s. -/
def fixY2 (y : Nat) : Nat := if y ≤ 68 then 2000 + y else 1900 + y

/-- `%y`: exactly two digits, century-mapped. -/
def year2Alts : List Char → List (Nat × List Char)
  | c1 :: c2 :: rest =>
    if c1.isDigit ∧ c2.isDigit then [(fixY2 (10 * digitVal c1 + digitVal c2), rest)] else []
  | _ => []

/-- Lowercase month abbreviations, January first. -/
def MONTH_ABBREVS : List (List Char) :=
  [['j','a','n'], ['f','e','b'], ['m','a','r'], ['a','p','r'], ['m','a','y'], ['j','u','n'],
   ['j','u','l'], ['a','u','g'], ['s','e','p'], ['o','c','t'], ['n','o','v'], ['d','e','c']]

/-- `%b`: a case-insensitive three-letter month abbreviation. -/
def monthNameAlts (cs : List Char) : List (Nat × List Char) :=
  (List.range 12).filterMap (fun i =>
    match MONTH_ABBREVS.get? i with
    | some ab =>
      if 3 ≤ cs.length ∧ (cs.take 3).map Char.toLower = ab then some (i + 1, cs.drop 3)
      else none
    | none => none)

/-- Match a token sequence against the whole input with backtracking,
collecting the possible (year, month, day) readings. -/
def matchFrom : List FmtTok → List Char → Nat × Nat × Nat → List (Nat × Nat × Nat)
  | [], [], acc => [acc]
  | [], _ :: _, _ => []
  | FmtTok.lit c :: toks, cs, acc =>
    match cs with
    | d :: rest => if d = c then matchFrom toks rest acc else []
    | [] => []
  | FmtTok.Y4 :: toks, cs, acc =>
    (year4Alts cs).flatMap (fun p => matchFrom toks p.2 (p.1, acc.2.1, acc.2.2))
  | FmtTok.Y2 :: toks, cs, acc =>
    (year2Alts cs).flatMap (fun p => matchFrom toks p.2 (p.1, acc.2.1, acc.2.2))
  | FmtTok.M :: toks, cs, acc =>
    (monthAlts cs).flatMap (fun p => matchFrom toks p.2 (acc.1, p.1, acc.2.2))
  | FmtTok.D :: toks, cs, acc =>
    (dayAlts cs).flatMap (fun p => matchFrom toks p.2 (acc.1, acc.2.1, p.1))
  | FmtTok.B :: toks, cs, acc =>
    (monthNameAlts cs).flatMap (fun p => matchFrom toks p.2 (acc.1, p.1, acc.2.2))

/-- Gregorian leap year. -/
def isLeap (y : Nat) : Bool := y % 4 = 0 && (y % 100 ≠ 0 || y % 400 = 0)

/-- Days in a month. -/
def daysInMonth (y m : Nat) : Nat :=
  if m = 2 then (if isLeap y then 29 else 28)
  else if m = 4 ∨ m = 6 ∨ m = 9 ∨ m = 11 then 30
  else 31

/-- The `datetime` constructor's day-of-month validation (month and day
lower bounds are already enforced by the token patterns). -/
def validYmd (p : Nat × Nat × Nat) : Bool := p.2.2 ≤ daysInMonth p.1 p.2.1

/-- `datetime.strptime(val.strip(), fmt)` succeeds. -/
def strptimeOk (fmt : DateFmt) (s : String) : Bool :=
  (matchFrom (fmtToks fmt) (RunAnalysis.stripWs s.toList) (1900, 1, 1)).any validYmd

/-- `DATE_FORMATS` (lines 172-182), in order. -/
def DATE_FORMATS : List DateFmt :=
  [.ISO, .MDY4, .DMY4, .MDY2, .DMY2, .YMD, .DbY4, .DbY2, .BdY4]

/-- `detect_date_format` (lines 333-350): over the first 20 non-null values,
the first format under which at least 80% of the sample parses; `none` if
the sample is empty or no format reaches the threshold. -/
def detect_date_format (values : List (Option String)) : Option DateFmt :=
  if (values.filterMap id).take 20 = [] then none
  else DATE_FORMATS.find? (fun fmt =>
    decide ((4 / 5 : ℚ) ≤
      (((values.filterMap id).take 20).countP (strptimeOk fmt) : ℚ) /
        (((values.filterMap id).take 20).length : ℚ)))

/-- The 80% rational threshold as an integer comparison, so the detector can
be evaluated by `decide` at concrete inputs. -/
theorem detect_date_format_nat (values : List (Option String)) :
    detect_date_format values =
      (if (values.filterMap id).take 20 = [] then none
       else DATE_FORMATS.find? (fun fmt =>
         decide (4 * ((values.filterMap id).take 20).length ≤
           5 * ((values.filterMap id).take 20).countP (strptimeOk fmt)))) := by
  rw [detect_date_format]
  by_cases hemp : (values.filterMap id).take 20 = []
  · rw [if_pos hemp, if_pos hemp]
  · rw [if_neg hemp, if_neg hemp]
    congr 1
    funext fmt
    rw [decide_eq_decide]
    have hl : 0 < ((values.filterMap id).take 20).length := List.length_pos.mpr hemp
    have hl' : (0 : ℚ) < (((values.filterMap id).take 20).length : ℚ) := by
      exact_mod_cast hl
    rw [div_le_div_iff₀ (by norm_num) hl', mul_comm
      ((((values.filterMap id).take 20).countP (strptimeOk fmt) : ℚ)) 5]
    exact_mod_cast Iff.rfl

/-- The four ambiguous slash formats of line 385. -/
def AMBIGUOUS : List DateFmt := [.MDY4, .DMY4, .MDY2, .DMY2]

/-- The swap of lines 402-405: only the four-digit-year formats are swapped;
`%m/%d/%y` and `%d/%m/%y` fall through the if/elif unchanged. -/
def swapFmt : DateFmt → DateFmt
  | .MDY4 => .DMY4
  | .DMY4 => .MDY4
  | f => f

/-- `re.split(r"[/\-.]", val.strip())` (line 390). -/
def splitDateParts (s : String) : List (List Char) :=
  (RunAnalysis.stripWs s.toList).splitOnP (fun c => c = '/' || c = '-' || c = '.')

/-- Python `int()` on a date part (the parts are plain digit runs; signed or
padded forms do not occur between slashes). -/
def parsePyInt (cs : List Char) : Option Nat :=
  if !cs.isEmpty && cs.all Char.isDigit then some (digitsToNat cs) else none

/-- The apparent month positions collected by lines 386-397 over the first 50
non-null values: the first two split parts must both parse as ints, and the
month is the second for the `%d`-first formats, the first otherwise.  (The
code also collects `day_parts` symmetrically; they are never used.) -/
def month_positions (fmt : DateFmt) (values : List (Option String)) : List Nat :=
  ((values.filterMap id).take 50).filterMap (fun v =>
    match (splitDateParts v).get? 0 >>= parsePyInt, (splitDateParts v).get? 1 >>= parsePyInt with
    | some p1, some p2 =>
      some (if fmt = DateFmt.DMY4 ∨ fmt = DateFmt.DMY2 then p2 else p1)
    | _, _ => none)

/-- The format-choice core of `standardize_dates` (lines 374-406): detect the
format; if it is one of the four ambiguous slash formats and some apparent
month position among the first 50 values exceeds 12, emit the ambiguity
warning (the Bool) and apply `swapFmt`.  (The pandas fallback when no format
is detected, lines 376-382, and the final conversion, lines 408-414, are
pandas plumbing with no bearing on the format choice.) -/
def standardize_dates_fmt (values : List (Option String)) : Option DateFmt × Bool :=
  match detect_date_format values with
  | none => (none, false)
  | some fmt =>
    if fmt ∈ AMBIGUOUS then
      if month_positions fmt values ≠ [] ∧ 12 < (month_positions fmt values).foldl max 0 then
        (some (swapFmt fmt), true)
      else (some fmt, false)
    else (some fmt, false)

/-- Twenty two-digit-year values that detect as `%m/%d/%y`, plus a 21st value
whose month position is 13. -/
def twoDigitVals : List (Option String) :=
  List.replicate 20 (some "01/05/24") ++ [some "13/06/24"]

/-- C4 (counterexample): with detected format `%m/%d/%y` (a two-digit-year
ambiguous slash format) and a sampled value "13/06/24" whose month position
13 exceeds 12, the code emits the ambiguity warning but does NOT swap the
day/month interpretation: the chosen format stays `%m/%d/%y` (the swap at
lines 402-405 only handles the four-digit-year formats). -/
theorem standardize_dates_two_digit_no_swap :
    detect_date_format twoDigitVals = some DateFmt.MDY2 ∧
    DateFmt.MDY2 ∈ AMBIGUOUS ∧
    12 < (month_positions DateFmt.MDY2 twoDigitVals).foldl max 0 ∧
    standardize_dates_fmt twoDigitVals = (some DateFmt.MDY2, true) := by
  have hdet : detect_date_format twoDigitVals = some DateFmt.MDY2 := by
    rw [detect_date_format_nat]
    decide
  refine ⟨hdet, by decide, by decide, ?_⟩
  simp only [standardize_dates_fmt, hdet]
  rw [if_pos (by decide), if_pos (by decide)]
  decide

/-- C4 (amended): for a detected ambiguous slash format, if some of the first
50 sampled values has a month-position number greater than 12 the code emits
the ambiguity warning and applies `swapFmt` — which swaps the day/month
interpretation exactly for the four-digit-year formats and leaves the
two-digit-year formats unchanged — and if no sampled value exceeds 12 the
interpretation is never swapped and no ambiguity warning is emitted. -/
theorem standardize_dates_ambiguous_spec (values : List (Option String)) (fmt : DateFmt)
    (hdet : detect_date_format values = some fmt) (hamb : fmt ∈ AMBIGUOUS) :
    ((month_positions fmt values ≠ [] ∧ 12 < (month_positions fmt values).foldl max 0) →
      standardize_dates_fmt values = (some (swapFmt fmt), true)) ∧
    (¬(month_positions fmt values ≠ [] ∧ 12 < (month_positions fmt values).foldl max 0) →
      standardize_dates_fmt values = (some fmt, false)) ∧
    (swapFmt DateFmt.MDY4 = DateFmt.DMY4 ∧ swapFmt DateFmt.DMY4 = DateFmt.MDY4 ∧
     swapFmt DateFmt.MDY2 = DateFmt.MDY2 ∧ swapFmt DateFmt.DMY2 = DateFmt.DMY2) := by
  refine ⟨?_, ?_, by decide⟩
  · intro hcond
    simp only [standardize_dates_fmt, hdet]
    rw [if_pos hamb, if_pos hcond]
  · intro hcond
    simp only [standardize_dates_fmt, hdet]
    rw [if_pos hamb, if_neg hcond]

/-- Witness for `standardize_dates_ambiguous_spec`: four-digit-year values
detected as `%m/%d/%Y` with a 13 in the month position are swapped to
`%d/%m/%Y` with a warning. -/
theorem standardize_dates_ambiguous_spec_witness :
    standardize_dates_fmt (List.replicate 20 (some "05/06/2024") ++ [some "13/06/2024"]) =
      (some DateFmt.DMY4, true) := by
  have hdet : detect_date_format
      (List.replicate 20 (some "05/06/2024") ++ [some "13/06/2024"]) = some DateFmt.MDY4 := by
    rw [detect_date_format_nat]
    decide
  exact (standardize_dates_ambiguous_spec _ DateFmt.MDY4 hdet (by decide)).1 (by decide)

end Preprocess
